import Mathlib

/-!
# Localized text formatting and BiDi analysis (`ICUText.cpp`)

A shallow embedding of `Engine/Source/Runtime/Core/Private/Internationalization/ICUText.cpp`.

* `check` / `checkf` are embedded as an explicit failure (`Except Failure`).
* The ICU library and the helpers of `ICUUtilities` are an explicit environment (`ICU`):
  every call into them is a field of that structure.
* `SIZE_T`, `int32`, `int64` are `Nat` / `Int`, with the width as a bound where it matters.
* A `double` is embedded as the rational it holds: the byte count divided by 1024 in
  `FText::AsMemory` is exactly representable (the dividend is at most 2 ^ 20); the total hours
  of a duration are computed with the rounding of IEEE 754 arithmetic.
* Code defined outside this file (`FText::AsNumber`, `FText::Format`, `FTimespan`, the
  assertion macros) is modelled from the specification and marked as such.
-/

namespace UE

/-- The ways a call can end other than by returning a value. -/
inductive Failure
  | AssertionFailed
  | IndexOutOfBounds
  | NullDereference
  deriving DecidableEq, Repr

/-- A culture, identified by its name. -/
structure FCulture where
  Name : String
  deriving DecidableEq, Repr

/-- A shared pointer to a culture; `none` is the invalid (null) pointer. -/
abbrev FCulturePtr := Option FCulture

/-- The pointer test `TargetCulture.IsValid()`. -/
def FCulturePtr.IsValid (p : FCulturePtr) : Bool := p.isSome

/-- The internationalization singleton `FInternationalization::Get()`: whether it has been
initialized, and the current culture. -/
structure FInternationalization where
  bIsInitialized : Bool
  CurrentCulture : FCulture
  deriving DecidableEq, Repr

def FInternationalization.IsInitialized (I18N : FInternationalization) : Bool :=
  I18N.bIsInitialized

def FInternationalization.GetCurrentCulture (I18N : FInternationalization) : FCulture :=
  I18N.CurrentCulture

/-- Modelled from the spec: the `FormattingOptions` record (`FNumberFormattingOptions` is declared
in `Text.h`, which is not part of this source tree): grouping and the minimum / maximum number
of integral digits; by default a number is written with at least one integral digit. -/
structure FNumberFormattingOptions where
  UseGrouping : Bool := true
  MinimumIntegralDigits : Nat := 1
  MaximumIntegralDigits : Nat := 324
  deriving DecidableEq, Repr

/-- The numeric values handed to `FText::AsNumber` by this file: a `uint64`, an `int32`, or a
`double` (held as the exact rational it represents). -/
inductive FNumber
  | UInt64 (Value : Nat)
  | Int32 (Value : Int)
  | Double (Value : ℚ)
  deriving DecidableEq

/-- The date / time styles (`EDateTimeStyle::Type`); they are only handed on to ICU. -/
inductive EDateTimeStyle
  | Default | Short | Medium | Long | Full
  deriving DecidableEq, Repr

/-- A point in time, given by what `FDateTime::ToUnixTimestamp` returns for it. -/
structure FDateTime where
  UnixTimestamp : Int
  deriving DecidableEq, Repr

/-- The history stored with a generated text. The three chronological histories are built in
this file; texts produced by code outside it carry `Other`. -/
inductive FTextHistory
  | Other
  | AsDate (DateTime : FDateTime) (DateStyle : EDateTimeStyle) (TimeZone : String)
      (TargetCulture : FCulturePtr)
  | AsTime (DateTime : FDateTime) (TimeStyle : EDateTimeStyle) (TimeZone : String)
      (TargetCulture : FCulturePtr)
  | AsDateTime (DateTime : FDateTime) (DateStyle TimeStyle : EDateTimeStyle) (TimeZone : String)
      (TargetCulture : FCulturePtr)
  deriving DecidableEq

/-- A text value: the display string it was rendered to, and its history. -/
structure FText where
  DisplayString : String
  History : FTextHistory
  deriving DecidableEq

/-- A value bound to a name in `FFormatNamedArguments`: a plain integer or a text. -/
inductive FFormatArgumentValue
  | Int (Value : Int)
  | Text (Value : FText)
  deriving DecidableEq

abbrev FFormatNamedArguments := List (String × FFormatArgumentValue)

/-- The direction values of ICU (`UBiDiDirection`). -/
inductive UBiDiDirection
  | UBIDI_LTR | UBIDI_RTL | UBIDI_MIXED | UBIDI_NEUTRAL
  deriving DecidableEq, Repr

/-- A converted string (`icu::UnicodeString`): its UTF-16 code units. -/
abbrev UnicodeString := List Nat

/-- What a successful `ubidi_setPara` leaves in the BiDi object, as far as this file reads it:
`ubidi_getDirection`, `ubidi_countRuns`, and `ubidi_getVisualRun` (direction, logical start,
length of the run at a visual index). -/
structure UBiDiPara where
  getDirection : UBiDiDirection
  countRuns : Int
  getVisualRun : Int → UBiDiDirection × Int × Int

/-- An ICU BiDi working object (`UBiDi`): its internal state (the memory it holds, what earlier
calls left in it). Nothing of it is read except through the calls below. -/
structure UBiDi where
  State : Nat
  deriving DecidableEq, Repr

/-- A string converter (`ICUUtilities::FStringConverter`): its internal state. Nothing of it is
read except through the conversion below. -/
structure FStringConverter where
  State : Nat
  deriving DecidableEq, Repr

/-- A pointer to a BiDi object; `none` is the null pointer. -/
abbrev UBiDiPtr := Option UBiDi

/-- An ICU status code; `U_ZERO_ERROR` is `0`, warnings are negative, errors positive. -/
abbrev UErrorCode := Int

def U_ZERO_ERROR : UErrorCode := 0

/-- The ICU test `U_SUCCESS(x)`, which is `x <= U_ZERO_ERROR`. -/
def U_SUCCESS (Status : UErrorCode) : Bool := decide (Status ≤ U_ZERO_ERROR)

/-- An embedding level (`UBiDiLevel`). -/
abbrev UBiDiLevel := Nat

/-- The ICU library and `ICUUtilities`, as far as this file calls into them. A formatter is
selected by the culture (and style, time zone) and applied to the value.
`StringConverter_ConvertString` is `FStringConverter::ConvertString(Source, SourceStartIndex,
SourceLen, Destination)`: from the converter, the source range and the destination as it was,
the destination and the converter as the call leaves them; `NewStringConverter` is a converter
as its constructor leaves it. `ubidi_openSized` and `ubidi_open` return the created object (or
null) and, for the former, the status; `ubidi_setPara` returns the status and what the object
then answers to the queries, `ubidi_setParaObject` the object as the call leaves it. -/
structure ICU where
  formatNumber : FCulture → FNumberFormattingOptions → FNumber → String
  formatDate : FCulture → EDateTimeStyle → String → Int → String
  formatTime : FCulture → EDateTimeStyle → String → Int → String
  formatDateTime : FCulture → EDateTimeStyle → EDateTimeStyle → String → Int → String
  NewStringConverter : FStringConverter
  StringConverter_ConvertString :
    FStringConverter → String → Int → Int → UnicodeString → UnicodeString × FStringConverter
  ubidi_openSized : Int → Int → UBiDiPtr × UErrorCode
  ubidi_open : UBiDiPtr
  ubidi_setPara : UBiDiPtr → UnicodeString → UBiDiLevel → UErrorCode × UBiDiPara
  ubidi_setParaObject : UBiDi → UnicodeString → UBiDiLevel → UBiDi
  ubidi_getBaseDirection : UnicodeString → UBiDiDirection

/-- Modelled from the spec: the one-shot `ICUUtilities::ConvertString(Source, SourceStartIndex,
SourceLen)` (defined outside this source tree): the conversion with working buffers of its own,
a newly constructed converter writing into a new string. -/
def ICU.ConvertString (icu : ICU) (Source : String) (SourceStartIndex SourceLen : Int) :
    UnicodeString :=
  (icu.StringConverter_ConvertString icu.NewStringConverter Source SourceStartIndex SourceLen
    []).1

/-- Modelled from the spec: the assertion macro `checkf` (its definition is not part of this
source tree): a failed check is fatal and surfaces immediately. -/
def checkf (Condition : Bool) : Except Failure Unit :=
  if Condition then .ok () else .error Failure.AssertionFailed

/-! ## Text construction outside this file -/

/-- Modelled from the spec: `FText::FromString`, the literal constructor (defined in `Text.cpp`,
not part of this source tree): the display string is the given string. -/
def FText.FromString (s : String) : FText := ⟨s, FTextHistory.Other⟩

/-- Modelled from the spec: the `NSLOCTEXT` macro (not part of this source tree), a
localizable literal; with no translation loaded its display string is the source string. -/
def NSLOCTEXT (_Namespace _Key Source : String) : FText := ⟨Source, FTextHistory.Other⟩

/-- Modelled from the spec: `FText::AsNumber` (defined in `Text.cpp`, not part of this source
tree): formats the value per the options (the defaults when none are given) using the number
formatter of the target culture, the current culture when no target is given. -/
def FText.AsNumber (icu : ICU) (I18N : FInternationalization) (Value : FNumber)
    (Options : Option FNumberFormattingOptions) (TargetCulture : FCulturePtr) : FText :=
  ⟨icu.formatNumber (TargetCulture.getD I18N.GetCurrentCulture) (Options.getD {}) Value,
    FTextHistory.Other⟩

/-- Modelled from the spec: the display string `FText::Format` gives a format argument (defined
in `Text.cpp`, not part of this source tree): a text gives its own display string; a plain
integer, which carries neither options nor a culture, is formatted as a number with the default
options in the current culture. -/
def FFormatArgumentValue.ToFormattedString (icu : ICU) (I18N : FInternationalization) :
    FFormatArgumentValue → String
  | .Int v => (FText.AsNumber icu I18N (FNumber.Int32 v) none none).DisplayString
  | .Text t => t.DisplayString

/-- Modelled from the spec: the lookup of an argument name in the named arguments of
`FText::Format` (not part of this source tree). -/
def FFormatNamedArguments.Find (Args : FFormatNamedArguments) (Name : List Char) :
    Option FFormatArgumentValue :=
  (Args.find? (fun a => a.1.data = Name)).map Prod.snd

/-- Modelled from the spec: the named-argument substitution of `FText::Format` (not part of
this source tree), over the characters of a pattern. The second argument holds the argument name
read so far once an opening brace has been seen. A name that is not bound is left in place. -/
def substituteArguments (Render : FFormatArgumentValue → String) (Args : FFormatNamedArguments) :
    List Char → Option (List Char) → List Char
  | [], none => []
  | [], some Name => '\x7b' :: Name
  | c :: cs, none =>
    if c = '\x7b' then substituteArguments Render Args cs (some [])
    else c :: substituteArguments Render Args cs none
  | c :: cs, some Name =>
    if c = '\x7d' then
      (match Args.Find Name with
        | some v => (Render v).data
        | none => '\x7b' :: (Name ++ ['\x7d'])) ++ substituteArguments Render Args cs none
    else substituteArguments Render Args cs (some (Name ++ [c]))

/-- Modelled from the spec: `FText::Format` with named arguments (defined in `Text.cpp`, not
part of this source tree): every `{Name}` of the pattern is replaced by the display string of the
argument bound to `Name`. -/
def FText.Format (icu : ICU) (I18N : FInternationalization) (Pattern : FText)
    (Arguments : FFormatNamedArguments) : FText :=
  ⟨String.mk (substituteArguments (FFormatArgumentValue.ToFormattedString icu I18N) Arguments
      Pattern.DisplayString.data none), FTextHistory.Other⟩

/-! ## `FText::AsMemory` -/

/-- The table `Prefixes` of `FText::AsMemory`. -/
def Prefixes : String := "kMGTPEZY"

/-- The scaling loop of `FText::AsMemory`:
`for (; NumBytes > 1024 * 1024; NumBytes >>= 10) { ++Prefix; }`,
returning the final `NumBytes` and `Prefix`. -/
def AsMemoryLoop (NumBytes : Nat) (Prefix : Nat) : Nat × Nat :=
  if h : NumBytes > 1024 * 1024 then AsMemoryLoop (NumBytes >>> 10) (Prefix + 1)
  else (NumBytes, Prefix)
termination_by NumBytes
decreasing_by
  simp only [Nat.shiftRight_eq_div_pow]
  exact Nat.div_lt_self (by omega) (by norm_num)

/-- `FString(1, &Prefixes[Prefix]) + TEXT("B")`: the letter at index `Prefix` followed by `B`.
Reading past the table is an error. -/
def UnitString (Prefix : Nat) : Except Failure String :=
  match Prefixes.data[Prefix]? with
  | some c => .ok (String.mk [c] ++ "B")
  | none => .error Failure.IndexOutOfBounds

/-- `FText::AsMemory(NumBytes, Options, TargetCulture)`. -/
def FText.AsMemory (icu : ICU) (I18N : FInternationalization) (NumBytes : Nat)
    (Options : Option FNumberFormattingOptions) (TargetCulture : FCulturePtr) :
    Except Failure FText := do
  checkf (I18N.IsInitialized == true)
  if NumBytes < 1024 then
    let Args : FFormatNamedArguments :=
      [("Number", .Text (FText.AsNumber icu I18N (FNumber.UInt64 NumBytes) Options TargetCulture)),
       ("Unit", .Text (FText.FromString "B"))]
    return FText.Format icu I18N
      (NSLOCTEXT "Internationalization" "ComputerMemoryFormatting" "{Number} {Unit}") Args
  let (NumBytes, Prefix) := AsMemoryLoop NumBytes 0
  let MemorySizeAsDouble : ℚ := (NumBytes : ℚ) / 1024
  let Unit ← UnitString Prefix
  let Args : FFormatNamedArguments :=
    [("Number", .Text (FText.AsNumber icu I18N (FNumber.Double MemorySizeAsDouble) Options
        TargetCulture)),
     ("Unit", .Text (FText.FromString Unit))]
  return FText.Format icu I18N
    (NSLOCTEXT "Internationalization" "ComputerMemoryFormatting" "{Number} {Unit}") Args

/-! ## `FText::AsDate`, `FText::AsTime`, `FText::AsDateTime` -/

/-- The constant `U_MILLIS_PER_SECOND` of ICU. -/
def U_MILLIS_PER_SECOND : Int := 1000

/-- `FText::AsDate(DateTime, DateStyle, TimeZone, TargetCulture)`. -/
def FText.AsDate (icu : ICU) (I18N : FInternationalization) (DateTime : FDateTime)
    (DateStyle : EDateTimeStyle) (TimeZone : String) (TargetCulture : FCulturePtr) :
    Except Failure FText := do
  checkf (I18N.IsInitialized == true)
  let Culture : FCulturePtr :=
    if TargetCulture.IsValid then TargetCulture else some I18N.GetCurrentCulture
  let UNIXTimestamp := DateTime.UnixTimestamp
  let ICUDate := UNIXTimestamp * U_MILLIS_PER_SECOND
  match Culture with
  | none => throw Failure.NullDereference
  | some Culture =>
    let NativeString := icu.formatDate Culture DateStyle TimeZone ICUDate
    return ⟨NativeString, FTextHistory.AsDate DateTime DateStyle TimeZone TargetCulture⟩

/-- `FText::AsTime(DateTime, TimeStyle, TimeZone, TargetCulture)`. -/
def FText.AsTime (icu : ICU) (I18N : FInternationalization) (DateTime : FDateTime)
    (TimeStyle : EDateTimeStyle) (TimeZone : String) (TargetCulture : FCulturePtr) :
    Except Failure FText := do
  checkf (I18N.IsInitialized == true)
  let Culture : FCulturePtr :=
    if TargetCulture.IsValid then TargetCulture else some I18N.GetCurrentCulture
  let UNIXTimestamp := DateTime.UnixTimestamp
  let ICUDate := UNIXTimestamp * U_MILLIS_PER_SECOND
  match Culture with
  | none => throw Failure.NullDereference
  | some Culture =>
    let NativeString := icu.formatTime Culture TimeStyle TimeZone ICUDate
    return ⟨NativeString, FTextHistory.AsTime DateTime TimeStyle TimeZone TargetCulture⟩

/-- `FText::AsDateTime(DateTime, DateStyle, TimeStyle, TimeZone, TargetCulture)`. -/
def FText.AsDateTime (icu : ICU) (I18N : FInternationalization) (DateTime : FDateTime)
    (DateStyle TimeStyle : EDateTimeStyle) (TimeZone : String) (TargetCulture : FCulturePtr) :
    Except Failure FText := do
  checkf (I18N.IsInitialized == true)
  let Culture : FCulturePtr :=
    if TargetCulture.IsValid then TargetCulture else some I18N.GetCurrentCulture
  let UNIXTimestamp := DateTime.UnixTimestamp
  let ICUDate := UNIXTimestamp * U_MILLIS_PER_SECOND
  match Culture with
  | none => throw Failure.NullDereference
  | some Culture =>
    let NativeString := icu.formatDateTime Culture DateStyle TimeStyle TimeZone ICUDate
    return ⟨NativeString,
      FTextHistory.AsDateTime DateTime DateStyle TimeStyle TimeZone TargetCulture⟩

/-! ## `FText::AsTimespan` -/

/-- Modelled from the spec: a duration (`FTimespan` is declared in `Timespan.h`, which is not
part of this source tree), held as a signed count of ticks. -/
structure FTimespan where
  Ticks : Int
  deriving DecidableEq, Repr

/-- Modelled from the spec: the tick constants of `Timespan.h` (not part of this source
tree); a tick is 100 nanoseconds. -/
def ETimespan.TicksPerSecond : Int := 10000000

/-- Modelled from the spec: ticks per minute (`Timespan.h`, not part of this source tree). -/
def ETimespan.TicksPerMinute : Int := 600000000

/-- Modelled from the spec: ticks per hour (`Timespan.h`, not part of this source tree). -/
def ETimespan.TicksPerHour : Int := 36000000000

/-- The quotient `N / D` of two naturals rounded to the nearest natural, ties to the even one:
the rounding of IEEE 754 arithmetic. -/
def RoundNearestEven (N D : Nat) : Nat :=
  if 2 * (N % D) < D then N / D
  else if D < 2 * (N % D) then N / D + 1
  else if (N / D) % 2 = 0 then N / D else N / D + 1

/-- Halving `n` while it is at least 2, counting the steps; the first argument bounds the number
of steps. -/
def Log2Loop : Nat → Nat → Nat
  | 0, _ => 0
  | Fuel + 1, n => if 2 ≤ n then Log2Loop Fuel (n / 2) + 1 else 0

/-- The position of the highest set bit of `n` (0 for `n = 0`): the binary logarithm rounded
down. The bound `n` on the number of halvings is never reached (`Log2_eq_log2`). -/
def Log2 (n : Nat) : Nat := Log2Loop n n

/-- The conversion `(double)` of a non-negative integer, as the integer the `double` holds: the
value is kept to 53 significant bits, the bits below being rounded away (to nearest, ties to
even). Every integer below `2 ^ 53` is kept as it is. -/
def DoubleOfNat (a : Nat) : Nat :=
  RoundNearestEven a (2 ^ (Log2 a - 52)) * 2 ^ (Log2 a - 52)

/-- The binary exponent of the quotient `a / b` of two positive naturals: the `e` with
`2 ^ e <= a / b < 2 ^ (e + 1)`. It is the difference of the bit lengths, or one less. -/
def BinaryExponent (a b : Nat) : Int :=
  if b * 2 ^ ((Log2 a : Int) - (Log2 b : Int)).toNat
      ≤ a * 2 ^ ((Log2 b : Int) - (Log2 a : Int)).toNat
  then (Log2 a : Int) - (Log2 b : Int)
  else (Log2 a : Int) - (Log2 b : Int) - 1

/-- The division of two `double`s that hold the naturals `a` and `b`, as a fraction (numerator,
denominator) of the `double` it yields: the exact quotient is scaled by the power of two that
brings it to 53 significant bits, rounded to the nearest natural (ties to even), and scaled
back. IEEE 754 division is this rounding of the exact quotient. -/
def DoubleQuotient (a b : Nat) : Nat × Nat :=
  (RoundNearestEven (a * 2 ^ (52 - BinaryExponent a b).toNat)
      (b * 2 ^ (BinaryExponent a b - 52).toNat) * 2 ^ (BinaryExponent a b - 52).toNat,
    2 ^ (52 - BinaryExponent a b).toNat)

/-- Modelled from the spec: `FTimespan::GetTotalHours` (`Timespan.h`, not part of this source
tree): the total hours of the duration as a `double`, `(double) Ticks / TicksPerHour`, given by
the rational that `double` holds. Both conversions and the division round as IEEE 754 does. -/
def FTimespan.GetTotalHours (Timespan : FTimespan) : ℚ :=
  ((Int.sign Timespan.Ticks *
      (DoubleQuotient (DoubleOfNat Timespan.Ticks.natAbs)
        (DoubleOfNat ETimespan.TicksPerHour.natAbs)).1 : Int) : ℚ) /
    (((DoubleQuotient (DoubleOfNat Timespan.Ticks.natAbs)
        (DoubleOfNat ETimespan.TicksPerHour.natAbs)).2 : Int) : ℚ)

/-- The total hours of a duration in the words of the specification: the exact rational
ticks / ticks-per-hour. -/
def FTimespan.ExactTotalHours (Timespan : FTimespan) : ℚ :=
  (Timespan.Ticks : ℚ) / (ETimespan.TicksPerHour : ℚ)

/-- Modelled from the spec: `FTimespan::GetMinutes` (`Timespan.h`, not part of this source
tree): the minutes component, with C++ integer division and remainder. -/
def FTimespan.GetMinutes (Timespan : FTimespan) : Int :=
  Int.tmod (Int.tdiv Timespan.Ticks ETimespan.TicksPerMinute) 60

/-- Modelled from the spec: `FTimespan::GetSeconds` (`Timespan.h`, not part of this source
tree): the seconds component, with C++ integer division and remainder. -/
def FTimespan.GetSeconds (Timespan : FTimespan) : Int :=
  Int.tmod (Int.tdiv Timespan.Ticks ETimespan.TicksPerSecond) 60

/-- The conversion `static_cast<int32>(double)` of C++: the fractional part is discarded
(truncation toward zero). -/
def static_cast_int32 (Value : ℚ) : Int :=
  Int.tdiv Value.num (Value.den : Int)

/-- The `Culture` local of the formatters:
`TargetCulture.IsValid() ? TargetCulture : I18N.GetCurrentCulture()`. -/
def FText.AsTimespan.Culture (I18N : FInternationalization) (TargetCulture : FCulturePtr) :
    FCulturePtr :=
  if TargetCulture.IsValid then TargetCulture else some I18N.GetCurrentCulture

/-- The `Hours` local of `FText::AsTimespan`. -/
def FText.AsTimespan.Hours (Timespan : FTimespan) : Int :=
  static_cast_int32 Timespan.GetTotalHours

/-- The `NumberFormattingOptions` local of `FText::AsTimespan`. -/
def FText.AsTimespan.NumberFormattingOptions : FNumberFormattingOptions :=
  { MinimumIntegralDigits := 2, MaximumIntegralDigits := 2 }

/-- The `TimeArguments` that `FText::AsTimespan` hands to `FText::Format`. -/
def FText.AsTimespan.TimeArguments (icu : ICU) (I18N : FInternationalization)
    (Timespan : FTimespan) (TargetCulture : FCulturePtr) : FFormatNamedArguments :=
  let Culture := FText.AsTimespan.Culture I18N TargetCulture
  let Hours := FText.AsTimespan.Hours Timespan
  let Minutes := Timespan.GetMinutes
  let Seconds := Timespan.GetSeconds
  [("Hours", .Int Hours),
   ("Minutes", .Text (FText.AsNumber icu I18N (FNumber.Int32 Minutes)
      (some FText.AsTimespan.NumberFormattingOptions) Culture)),
   ("Seconds", .Text (FText.AsNumber icu I18N (FNumber.Int32 Seconds)
      (some FText.AsTimespan.NumberFormattingOptions) Culture))]

/-- `FText::AsTimespan(Timespan, TargetCulture)`. -/
def FText.AsTimespan (icu : ICU) (I18N : FInternationalization) (Timespan : FTimespan)
    (TargetCulture : FCulturePtr) : Except Failure FText := do
  checkf (I18N.IsInitialized == true)
  let TimespanFormatPattern := NSLOCTEXT "Timespan" "FormatPattern" "{Hours}:{Minutes}:{Seconds}"
  return FText.Format icu I18N TimespanFormatPattern
    (FText.AsTimespan.TimeArguments icu I18N Timespan TargetCulture)

/-! ## `FText::CompareTo`, `FText::EqualTo`, `FText::FSortPredicate` -/

/-- The comparison levels (`ETextComparisonLevel::Type`); they are only handed on to the culture
to select a collator. -/
inductive ETextComparisonLevel
  | Default | Primary | Secondary | Tertiary | Quaternary | Quinary
  deriving DecidableEq, Repr

/-- The result of an ICU comparison (`UCollationResult`). -/
inductive UCollationResult
  | UCOL_LESS | UCOL_EQUAL | UCOL_GREATER
  deriving DecidableEq, Repr

/-- The integer values of `UCollationResult`: `UCOL_LESS = -1`, `UCOL_EQUAL = 0`,
`UCOL_GREATER = 1`. -/
def UCollationResult.toInt32 : UCollationResult → Int
  | .UCOL_LESS => -1
  | .UCOL_EQUAL => 0
  | .UCOL_GREATER => 1

/-- An ICU collator (`icu::Collator`), as far as this file calls it: `compare` on two character
iterators, each given here by the display string it iterates over. -/
structure Collator where
  compare : String → String → UCollationResult

/-- The collators of the cultures: `Culture->Implementation->GetCollator(ComparisonLevel)`. -/
structure ICUCollators where
  GetCollator : FCulture → ETextComparisonLevel → Collator

/-- Modelled from the spec: `setCurrentCulture` of the culture registry (defined outside this
source tree): the current-culture selection is replaced, nothing else changes. -/
def FInternationalization.SetCurrentCulture (I18N : FInternationalization) (Culture : FCulture) :
    FInternationalization :=
  { I18N with CurrentCulture := Culture }

/-- `FText::CompareTo(Other, ComparisonLevel)`. -/
def FText.CompareTo (Collators : ICUCollators) (I18N : FInternationalization) (This Other : FText)
    (ComparisonLevel : ETextComparisonLevel) : Int :=
  let Collator := Collators.GetCollator I18N.GetCurrentCulture ComparisonLevel
  let Result := Collator.compare This.DisplayString Other.DisplayString
  Result.toInt32

/-- `FText::CompareToCaseIgnored(Other)`. -/
def FText.CompareToCaseIgnored (Collators : ICUCollators) (I18N : FInternationalization)
    (This Other : FText) : Int :=
  FText.CompareTo Collators I18N This Other ETextComparisonLevel.Secondary

/-- `FText::EqualTo(Other, ComparisonLevel)`. -/
def FText.EqualTo (Collators : ICUCollators) (I18N : FInternationalization) (This Other : FText)
    (ComparisonLevel : ETextComparisonLevel) : Bool :=
  FText.CompareTo Collators I18N This Other ComparisonLevel == 0

/-- `FText::EqualToCaseIgnored(Other)`. -/
def FText.EqualToCaseIgnored (Collators : ICUCollators) (I18N : FInternationalization)
    (This Other : FText) : Bool :=
  FText.EqualTo Collators I18N This Other ETextComparisonLevel.Secondary

/-- The members of `FText::FSortPredicate::FSortPredicateImplementation`. -/
structure FText.FSortPredicate.FSortPredicateImplementation where
  ComparisonLevel : ETextComparisonLevel
  ICUCollator : Collator

/-- The constructor of `FSortPredicateImplementation`: the collator is taken from the culture that
is current when the constructor runs. -/
def FText.FSortPredicate.FSortPredicateImplementation.Create (Collators : ICUCollators)
    (I18N : FInternationalization) (InComparisonLevel : ETextComparisonLevel) :
    FText.FSortPredicate.FSortPredicateImplementation :=
  { ComparisonLevel := InComparisonLevel
    ICUCollator := Collators.GetCollator I18N.GetCurrentCulture InComparisonLevel }

/-- `FSortPredicateImplementation::Compare(A, B)`. -/
def FText.FSortPredicate.FSortPredicateImplementation.Compare
    (This : FText.FSortPredicate.FSortPredicateImplementation) (A B : FText) : Bool :=
  let Result := This.ICUCollator.compare A.DisplayString B.DisplayString
  Result != UCollationResult.UCOL_GREATER

/-- The predicate object `FText::FSortPredicate`. -/
structure FText.FSortPredicate where
  Implementation : FText.FSortPredicate.FSortPredicateImplementation

/-- The constructor `FText::FSortPredicate::FSortPredicate(ComparisonLevel)`. -/
def FText.FSortPredicate.Create (Collators : ICUCollators) (I18N : FInternationalization)
    (ComparisonLevel : ETextComparisonLevel) : FText.FSortPredicate :=
  ⟨FText.FSortPredicate.FSortPredicateImplementation.Create Collators I18N ComparisonLevel⟩

/-- `FText::FSortPredicate::operator()(A, B)`. The registry as it is at the time of the call is
a parameter, as for every operation; the body does not consult it. -/
def FText.FSortPredicate.Call (_I18N : FInternationalization) (This : FText.FSortPredicate)
    (A B : FText) : Bool :=
  This.Implementation.Compare A B

/-! ## `TextBiDi` -/

/-- The text directions (`ETextDirection`); `LeftToRight` is the zero value. -/
inductive ETextDirection
  | LeftToRight | RightToLeft | Mixed
  deriving DecidableEq, Repr

/-- One directional run: where it starts in the string, its length and its direction. -/
structure FTextDirectionInfo where
  StartIndex : Int
  Length : Int
  TextDirection : ETextDirection
  deriving DecidableEq, Repr

/-- The all-zero entry that `AddZeroed` creates. -/
def FTextDirectionInfo.Zeroed : FTextDirectionInfo := ⟨0, 0, ETextDirection.LeftToRight⟩

/-- Modelled from the spec: the assertion macro `check` (its definition is not part of this
source tree): a failed check is fatal and surfaces immediately. -/
def check (Condition : Bool) : Except Failure Unit :=
  if Condition then .ok () else .error Failure.AssertionFailed

/-- `TArray::Reset()`: empties the array. -/
def Reset (_Array : List FTextDirectionInfo) : List FTextDirectionInfo := []

/-- `TArray::AddZeroed(Count)`: appends `Count` zeroed entries; a negative count violates its
precondition. -/
def AddZeroed (Array : List FTextDirectionInfo) (Count : Int) :
    Except Failure (List FTextDirectionInfo) := do
  check (decide (0 ≤ Count))
  return Array ++ List.replicate Count.toNat FTextDirectionInfo.Zeroed

namespace TextBiDi

namespace Internal

/-- `TextBiDi::Internal::ICUToUE`. -/
def ICUToUE (InDirection : UBiDiDirection) : ETextDirection :=
  match InDirection with
  | .UBIDI_LTR => ETextDirection.LeftToRight
  | .UBIDI_RTL => ETextDirection.RightToLeft
  | .UBIDI_MIXED => ETextDirection.Mixed
  | _ => ETextDirection.LeftToRight

/-- `TextBiDi::Internal::GetParagraphDirection`. -/
def GetParagraphDirection (InBaseDirection : ETextDirection) : Except Failure UBiDiLevel := do
  check (InBaseDirection != ETextDirection.Mixed)
  return if InBaseDirection == ETextDirection.LeftToRight then 0 else 1

/-- `TextBiDi::Internal::ComputeTextDirection(InICUBiDi, InICUString)`. -/
def ComputeTextDirection (icu : ICU) (InICUBiDi : UBiDiPtr) (InICUString : UnicodeString) :
    Except Failure ETextDirection := do
  let Level ← GetParagraphDirection ETextDirection.LeftToRight
  let (ICUStatus, Para) := icu.ubidi_setPara InICUBiDi InICUString Level
  if U_SUCCESS ICUStatus then
    return ICUToUE Para.getDirection
  else
    return ETextDirection.LeftToRight

/-- The body of the run loop of `ComputeTextDirection`, run `Count` more times from `RunIndex`:
entry `RunIndex` of the array receives the direction, start and length of the visual run
`RunIndex`, and its start is shifted by `InStringOffset`. -/
def FillRuns (Para : UBiDiPara) (InStringOffset : Int) :
    Nat → Int → List FTextDirectionInfo → List FTextDirectionInfo
  | 0, _, OutTextDirectionInfo => OutTextDirectionInfo
  | Count + 1, RunIndex, OutTextDirectionInfo =>
    let Run := Para.getVisualRun RunIndex
    let CurTextDirectionInfo : FTextDirectionInfo :=
      { TextDirection := ICUToUE Run.1, StartIndex := Run.2.1 + InStringOffset,
        Length := Run.2.2 }
    FillRuns Para InStringOffset Count (RunIndex + 1)
      (OutTextDirectionInfo.set RunIndex.toNat CurTextDirectionInfo)

/-- `TextBiDi::Internal::ComputeTextDirection(InICUBiDi, InICUString, InStringOffset,
InBaseDirection, OutTextDirectionInfo)`, returning the direction and the output array. -/
def ComputeTextDirectionInfo (icu : ICU) (InICUBiDi : UBiDiPtr) (InICUString : UnicodeString)
    (InStringOffset : Int) (InBaseDirection : ETextDirection)
    (OutTextDirectionInfo : List FTextDirectionInfo) :
    Except Failure (ETextDirection × List FTextDirectionInfo) := do
  let Level ← GetParagraphDirection InBaseDirection
  let (ICUStatus, Para) := icu.ubidi_setPara InICUBiDi InICUString Level
  if U_SUCCESS ICUStatus then
    let ReturnDirection := ICUToUE Para.getDirection
    let RunCount := Para.countRuns
    let OutTextDirectionInfo ← AddZeroed OutTextDirectionInfo RunCount
    let OutTextDirectionInfo := FillRuns Para InStringOffset RunCount.toNat 0 OutTextDirectionInfo
    return (ReturnDirection, OutTextDirectionInfo)
  else
    return (ETextDirection.LeftToRight, OutTextDirectionInfo)

/-- `TextBiDi::Internal::ComputeBaseDirection`. -/
def ComputeBaseDirection (icu : ICU) (InICUString : UnicodeString) : ETextDirection :=
  ICUToUE (icu.ubidi_getBaseDirection InICUString)

/-- The BiDi object as the `ubidi_setPara` call of `ComputeTextDirection` leaves it; with base
direction `Mixed` no call is made. -/
def ParagraphObject (icu : ICU) (InICUBiDi : UBiDiPtr) (InICUString : UnicodeString)
    (InBaseDirection : ETextDirection) : UBiDiPtr :=
  match GetParagraphDirection InBaseDirection with
  | .ok Level => InICUBiDi.map (fun Object => icu.ubidi_setParaObject Object InICUString Level)
  | .error _ => InICUBiDi

/-- The reusable analyzer `FICUTextBiDi`: its BiDi object, its retained converted string and
its retained string converter. -/
structure FICUTextBiDi where
  ICUBiDi : UBiDiPtr
  ICUString : UnicodeString
  StringConverter : FStringConverter

/-- The constructor of `FICUTextBiDi`. -/
def FICUTextBiDi.Create (icu : ICU) : FICUTextBiDi :=
  ⟨icu.ubidi_open, [], icu.NewStringConverter⟩

/-- The call `StringConverter.ConvertString(InString, InStringStartIndex, InStringLen,
ICUString)` of the analyzer: the retained converter writes into the retained string. -/
def FICUTextBiDi.ConvertString (icu : ICU) (This : FICUTextBiDi) (InString : String)
    (InStringStartIndex InStringLen : Int) : FICUTextBiDi :=
  { This with
    ICUString := (icu.StringConverter_ConvertString This.StringConverter InString
      InStringStartIndex InStringLen This.ICUString).1
    StringConverter := (icu.StringConverter_ConvertString This.StringConverter InString
      InStringStartIndex InStringLen This.ICUString).2 }

/-- `FICUTextBiDi::ComputeTextDirection(InString, InStringStartIndex, InStringLen)`, returning
the direction and the analyzer afterwards. -/
def FICUTextBiDi.ComputeTextDirection (icu : ICU) (This : FICUTextBiDi) (InString : String)
    (InStringStartIndex InStringLen : Int) : Except Failure (ETextDirection × FICUTextBiDi) := do
  if InStringLen == 0 then
    return (ETextDirection.LeftToRight, This)
  let This := FICUTextBiDi.ConvertString icu This InString InStringStartIndex InStringLen
  let Direction ← Internal.ComputeTextDirection icu This.ICUBiDi This.ICUString
  return (Direction,
    { This with ICUBiDi :=
        ParagraphObject icu This.ICUBiDi This.ICUString ETextDirection.LeftToRight })

/-- `FICUTextBiDi::ComputeTextDirection(InString)` for an `FString`. -/
def FICUTextBiDi.ComputeTextDirection_String (icu : ICU) (This : FICUTextBiDi)
    (InString : String) : Except Failure (ETextDirection × FICUTextBiDi) :=
  FICUTextBiDi.ComputeTextDirection icu This InString 0 InString.length

/-- `FICUTextBiDi::ComputeTextDirection(InString, InStringStartIndex, InStringLen,
InBaseDirection, OutTextDirectionInfo)`, returning the direction, the output array and the
analyzer afterwards. -/
def FICUTextBiDi.ComputeTextDirectionInfo (icu : ICU) (This : FICUTextBiDi) (InString : String)
    (InStringStartIndex InStringLen : Int) (InBaseDirection : ETextDirection)
    (OutTextDirectionInfo : List FTextDirectionInfo) :
    Except Failure (ETextDirection × List FTextDirectionInfo × FICUTextBiDi) := do
  let OutTextDirectionInfo := Reset OutTextDirectionInfo
  if InStringLen == 0 then
    return (ETextDirection.LeftToRight, OutTextDirectionInfo, This)
  let This := FICUTextBiDi.ConvertString icu This InString InStringStartIndex InStringLen
  let (Direction, OutTextDirectionInfo) ←
    Internal.ComputeTextDirectionInfo icu This.ICUBiDi This.ICUString InStringStartIndex
      InBaseDirection OutTextDirectionInfo
  return (Direction, OutTextDirectionInfo,
    { This with ICUBiDi := ParagraphObject icu This.ICUBiDi This.ICUString InBaseDirection })

/-- `FICUTextBiDi::ComputeTextDirection(InString, InBaseDirection, OutTextDirectionInfo)` for an
`FString`. -/
def FICUTextBiDi.ComputeTextDirectionInfo_String (icu : ICU) (This : FICUTextBiDi)
    (InString : String) (InBaseDirection : ETextDirection)
    (OutTextDirectionInfo : List FTextDirectionInfo) :
    Except Failure (ETextDirection × List FTextDirectionInfo × FICUTextBiDi) :=
  FICUTextBiDi.ComputeTextDirectionInfo icu This InString 0 InString.length InBaseDirection
    OutTextDirectionInfo

/-- `FICUTextBiDi::ComputeBaseDirection(InString, InStringStartIndex, InStringLen)`, returning
the direction and the analyzer afterwards. -/
def FICUTextBiDi.ComputeBaseDirection (icu : ICU) (This : FICUTextBiDi) (InString : String)
    (InStringStartIndex InStringLen : Int) : ETextDirection × FICUTextBiDi :=
  if InStringLen == 0 then
    (ETextDirection.LeftToRight, This)
  else
    let This := FICUTextBiDi.ConvertString icu This InString InStringStartIndex InStringLen
    (Internal.ComputeBaseDirection icu This.ICUString, This)

/-- `FICUTextBiDi::ComputeBaseDirection(InString)` for an `FString`. -/
def FICUTextBiDi.ComputeBaseDirection_String (icu : ICU) (This : FICUTextBiDi)
    (InString : String) : ETextDirection × FICUTextBiDi :=
  FICUTextBiDi.ComputeBaseDirection icu This InString 0 InString.length

end Internal

/-- `TextBiDi::ComputeTextDirection(InString, InStringStartIndex, InStringLen)`. -/
def ComputeTextDirection (icu : ICU) (InString : String)
    (InStringStartIndex InStringLen : Int) : Except Failure ETextDirection := do
  if InStringLen == 0 then
    return ETextDirection.LeftToRight
  let ICUString := icu.ConvertString InString InStringStartIndex InStringLen
  let (ICUBiDi, ICUStatus) := icu.ubidi_openSized ICUString.length 0
  if ICUBiDi.isSome && U_SUCCESS ICUStatus then
    let ReturnDirection ← Internal.ComputeTextDirection icu ICUBiDi ICUString
    return ReturnDirection
  else
    return ETextDirection.LeftToRight

/-- `TextBiDi::ComputeTextDirection(InString)` for an `FString`. -/
def ComputeTextDirection_String (icu : ICU) (InString : String) :
    Except Failure ETextDirection :=
  ComputeTextDirection icu InString 0 InString.length

/-- `TextBiDi::ComputeTextDirection(InText)` for an `FText`. -/
def ComputeTextDirection_Text (icu : ICU) (InText : FText) : Except Failure ETextDirection :=
  ComputeTextDirection_String icu InText.DisplayString

/-- `TextBiDi::ComputeTextDirection(InString, InStringStartIndex, InStringLen, InBaseDirection,
OutTextDirectionInfo)`, returning the direction and the output array. -/
def ComputeTextDirectionInfo (icu : ICU) (InString : String)
    (InStringStartIndex InStringLen : Int) (InBaseDirection : ETextDirection)
    (OutTextDirectionInfo : List FTextDirectionInfo) :
    Except Failure (ETextDirection × List FTextDirectionInfo) := do
  let OutTextDirectionInfo := Reset OutTextDirectionInfo
  if InStringLen == 0 then
    return (ETextDirection.LeftToRight, OutTextDirectionInfo)
  let ICUString := icu.ConvertString InString InStringStartIndex InStringLen
  let (ICUBiDi, ICUStatus) := icu.ubidi_openSized ICUString.length 0
  if ICUBiDi.isSome && U_SUCCESS ICUStatus then
    let Result ← Internal.ComputeTextDirectionInfo icu ICUBiDi ICUString InStringStartIndex
      InBaseDirection OutTextDirectionInfo
    return Result
  else
    return (ETextDirection.LeftToRight, OutTextDirectionInfo)

/-- `TextBiDi::ComputeTextDirection(InString, InBaseDirection, OutTextDirectionInfo)` for an
`FString`. -/
def ComputeTextDirectionInfo_String (icu : ICU) (InString : String)
    (InBaseDirection : ETextDirection) (OutTextDirectionInfo : List FTextDirectionInfo) :
    Except Failure (ETextDirection × List FTextDirectionInfo) :=
  ComputeTextDirectionInfo icu InString 0 InString.length InBaseDirection OutTextDirectionInfo

/-- `TextBiDi::ComputeTextDirection(InText, InBaseDirection, OutTextDirectionInfo)` for an
`FText`. -/
def ComputeTextDirectionInfo_Text (icu : ICU) (InText : FText)
    (InBaseDirection : ETextDirection) (OutTextDirectionInfo : List FTextDirectionInfo) :
    Except Failure (ETextDirection × List FTextDirectionInfo) :=
  ComputeTextDirectionInfo_String icu InText.DisplayString InBaseDirection OutTextDirectionInfo

/-- `TextBiDi::ComputeBaseDirection(InString, InStringStartIndex, InStringLen)`. -/
def ComputeBaseDirection (icu : ICU) (InString : String)
    (InStringStartIndex InStringLen : Int) : ETextDirection :=
  if InStringLen == 0 then
    ETextDirection.LeftToRight
  else
    let ICUString := icu.ConvertString InString InStringStartIndex InStringLen
    Internal.ComputeBaseDirection icu ICUString

/-- `TextBiDi::ComputeBaseDirection(InString)` for an `FString`. -/
def ComputeBaseDirection_String (icu : ICU) (InString : String) : ETextDirection :=
  ComputeBaseDirection icu InString 0 InString.length

/-- `TextBiDi::ComputeBaseDirection(InText)` for an `FText`. -/
def ComputeBaseDirection_Text (icu : ICU) (InText : FText) : ETextDirection :=
  ComputeBaseDirection_String icu InText.DisplayString

end TextBiDi

/-! ## A concrete environment for evaluation -/

/-- Decimal digits of a natural number in the digit set starting at `Zero`, cut to the maximum
and zero-padded to the minimum number of integral digits of the options. -/
def IntegralDigits (Zero : Nat) (Options : FNumberFormattingOptions) (Value : Nat) : List Char :=
  let Digits := (Nat.toDigits 10 Value).map (fun c => Char.ofNat (c.toNat - 48 + Zero))
  let Cut := Digits.drop (Digits.length - Options.MaximumIntegralDigits)
  List.replicate (Options.MinimumIntegralDigits - Cut.length) (Char.ofNat Zero) ++ Cut

/-- A number formatter for evaluation: the culture named `ar` writes Arabic-Indic digits, every
other culture writes ASCII digits; a negative value is preceded by a minus sign; of a `double`
the integral part is written. -/
def DecimalFormatNumber (Culture : FCulture) (Options : FNumberFormattingOptions) :
    FNumber → String
  | .UInt64 v => String.mk (IntegralDigits (if Culture.Name = "ar" then 1632 else 48) Options v)
  | .Int32 v =>
    String.mk ((if v < 0 then ['-'] else []) ++
      IntegralDigits (if Culture.Name = "ar" then 1632 else 48) Options v.natAbs)
  | .Double v =>
    String.mk ((if v < 0 then ['-'] else []) ++
      IntegralDigits (if Culture.Name = "ar" then 1632 else 48) Options
        (Int.tdiv v.num v.den).natAbs)

/-- An environment for evaluation: numbers are written by `DecimalFormatNumber`, dates are
written as the culture name followed by the millisecond count, a converter copies the code
points of the source range whatever it converted before, no BiDi object can be created. -/
def DecimalICU : ICU where
  formatNumber := DecimalFormatNumber
  formatDate := fun Culture _ _ Date => Culture.Name ++ String.mk (Nat.toDigits 10 Date.natAbs)
  formatTime := fun Culture _ _ Date => Culture.Name ++ String.mk (Nat.toDigits 10 Date.natAbs)
  formatDateTime := fun Culture _ _ _ Date =>
    Culture.Name ++ String.mk (Nat.toDigits 10 Date.natAbs)
  NewStringConverter := ⟨0⟩
  StringConverter_ConvertString := fun Converter Source SourceStartIndex SourceLen _ =>
    (((Source.data.drop SourceStartIndex.toNat).take SourceLen.toNat).map Char.toNat, Converter)
  ubidi_openSized := fun _ _ => (none, 7)
  ubidi_open := none
  ubidi_setPara := fun _ _ _ => (1, ⟨UBiDiDirection.UBIDI_LTR, 0, fun _ => (.UBIDI_LTR, 0, 0)⟩)
  ubidi_setParaObject := fun Object InICUString _ => ⟨Object.State + InICUString.length + 1⟩
  ubidi_getBaseDirection := fun _ => UBiDiDirection.UBIDI_NEUTRAL

/-- An initialized registry whose current culture is `en`. -/
def InitializedEn : FInternationalization := ⟨true, ⟨"en"⟩⟩

/-- An initialized registry whose current culture is `ar`. -/
def InitializedAr : FInternationalization := ⟨true, ⟨"ar"⟩⟩

/-- An environment for evaluation in which a BiDi object is created but every `ubidi_setPara`
fails. -/
def FailingParaICU : ICU :=
  { DecimalICU with
    ubidi_openSized := fun _ _ => (some ⟨0⟩, 0)
    ubidi_open := some ⟨1⟩ }

/-- The visual runs reported by `TwoRunICU`: in a left-to-right paragraph the left-to-right run
of three code units comes first, in a right-to-left paragraph the right-to-left run of two. -/
def TwoRunVisualRun (Level : UBiDiLevel) (RunIndex : Int) : UBiDiDirection × Int × Int :=
  if (Level == 0) == (RunIndex == 0) then (UBiDiDirection.UBIDI_LTR, 0, 3)
  else (UBiDiDirection.UBIDI_RTL, 3, 2)

/-- An environment for evaluation in which a BiDi object is created and every paragraph is
analysed as three left-to-right code units followed by two right-to-left ones. -/
def TwoRunICU : ICU :=
  { DecimalICU with
    ubidi_openSized := fun _ _ => (some ⟨0⟩, 0)
    ubidi_open := some ⟨1⟩
    ubidi_setPara := fun _ _ Level => (0, ⟨UBiDiDirection.UBIDI_MIXED, 2, TwoRunVisualRun Level⟩) }

/-- An environment for evaluation in which a BiDi object is created and `ubidi_setPara` fails
at level 1 only. -/
def RtlFailingICU : ICU :=
  { TwoRunICU with
    ubidi_setPara := fun _ _ Level =>
      if Level = 1 then (1, ⟨UBiDiDirection.UBIDI_LTR, 0, fun _ => (.UBIDI_LTR, 0, 0)⟩)
      else (0, ⟨UBiDiDirection.UBIDI_MIXED, 2, TwoRunVisualRun Level⟩) }

/-- An environment for evaluation in which a converter appends to the destination instead of
replacing it, and a paragraph is analysed as one left-to-right run over the whole text. -/
def AppendingICU : ICU :=
  { TwoRunICU with
    StringConverter_ConvertString := fun Converter Source SourceStartIndex SourceLen
        Destination =>
      (Destination ++
        ((Source.data.drop SourceStartIndex.toNat).take SourceLen.toNat).map Char.toNat,
        Converter)
    ubidi_setPara := fun _ InICUString _ =>
      (0, ⟨UBiDiDirection.UBIDI_LTR, 1, fun _ => (.UBIDI_LTR, 0, InICUString.length)⟩) }

/-- Comparison of two strings by their characters, optionally ignoring the case of ASCII
letters. -/
def CompareCharacters (IgnoreCase : Bool) : List Char → List Char → UCollationResult
  | [], [] => UCollationResult.UCOL_EQUAL
  | [], _ :: _ => UCollationResult.UCOL_LESS
  | _ :: _, [] => UCollationResult.UCOL_GREATER
  | a :: as, b :: bs =>
    let a' := if IgnoreCase then a.toLower else a
    let b' := if IgnoreCase then b.toLower else b
    if a'.toNat < b'.toNat then UCollationResult.UCOL_LESS
    else if b'.toNat < a'.toNat then UCollationResult.UCOL_GREATER
    else CompareCharacters IgnoreCase as bs

/-- Collators for evaluation: characters are compared in order, ignoring case at the levels up
to `Secondary`; the culture named `desc` orders the other way round. -/
def CharacterCollators : ICUCollators where
  GetCollator := fun Culture ComparisonLevel =>
    let IgnoreCase := decide (ComparisonLevel = ETextComparisonLevel.Primary ∨
      ComparisonLevel = ETextComparisonLevel.Secondary)
    if Culture.Name = "desc" then
      ⟨fun A B => CompareCharacters IgnoreCase B.data A.data⟩
    else
      ⟨fun A B => CompareCharacters IgnoreCase A.data B.data⟩

/-! ## Facts about the scaling loop of `FText::AsMemory` -/

theorem AsMemoryLoop_unfold (n p : Nat) :
    AsMemoryLoop n p =
      if n > 1024 * 1024 then AsMemoryLoop (n >>> 10) (p + 1) else (n, p) := by
  rw [AsMemoryLoop]
  split <;> rfl

/-- The loop stops after `k` whole divisions by 1024, where `k` is the first count at which the
quotient no longer exceeds 1024 * 1024. -/
theorem AsMemoryLoop_spec (n : Nat) : ∀ p : Nat, ∃ k : Nat,
    AsMemoryLoop n p = (n / 1024 ^ k, p + k) ∧ n / 1024 ^ k ≤ 1048576 ∧
      ∀ j, j < k → 1048576 < n / 1024 ^ j := by
  induction n using Nat.strong_induction_on with
  | _ n ih =>
    intro p
    by_cases h : n > 1024 * 1024
    · have hlt : n >>> 10 < n := by
        simp only [Nat.shiftRight_eq_div_pow]
        exact Nat.div_lt_self (by omega) (by norm_num)
      obtain ⟨k, hk, hle, hall⟩ := ih (n >>> 10) hlt (p + 1)
      have hdiv : ∀ j, n >>> 10 / 1024 ^ j = n / 1024 ^ (j + 1) := by
        intro j
        simp only [Nat.shiftRight_eq_div_pow]
        rw [Nat.div_div_eq_div_mul, pow_succ]
        congr 1
        ring
      refine ⟨k + 1, ?_, ?_, ?_⟩
      · rw [AsMemoryLoop_unfold, if_pos h, hk, hdiv]
        congr 1
        omega
      · rw [← hdiv]; exact hle
      · intro j hj
        cases j with
        | zero => simpa using h
        | succ j => rw [← hdiv]; exact hall j (by omega)
    · refine ⟨0, ?_, ?_, ?_⟩
      · rw [AsMemoryLoop_unfold, if_neg h]; simp
      · simp; omega
      · intro j hj; omega

/-- For a 64-bit byte count the loop runs at most five times. -/
theorem AsMemoryLoop_steps_le (n k : Nat) (hn : n < 2 ^ 64)
    (hall : ∀ j, j < k → 1048576 < n / 1024 ^ j) : k ≤ 5 := by
  by_contra hk
  have h5 := hall 5 (by omega)
  have : n / 1024 ^ 5 < 2 ^ 14 := by
    apply Nat.div_lt_of_lt_mul
    norm_num at hn ⊢
    omega
  norm_num at this h5
  omega

/-- The pattern `"{Number} {Unit}"` with a text bound to each of its two names renders as the
number, a blank, and the unit. -/
theorem Format_Number_Unit (icu : ICU) (I18N : FInternationalization) (Number Unit : FText) :
    (FText.Format icu I18N
      (NSLOCTEXT "Internationalization" "ComputerMemoryFormatting" "{Number} {Unit}")
      [("Number", .Text Number), ("Unit", .Text Unit)]).DisplayString
      = Number.DisplayString ++ " " ++ Unit.DisplayString := by
  apply String.ext
  simp [FText.Format, NSLOCTEXT, substituteArguments, FFormatNamedArguments.Find,
    FFormatArgumentValue.ToFormattedString, String.data_append]

/-! ## `FText::AsMemory`: byte counts below 1024 -/

/-- C1: for every byte count `n < 1024` (registry initialized), `FText::AsMemory` formats the
pattern `"{Number} {Unit}"` with `Number = AsNumber((uint64) n)` under the caller's options and
target culture and `Unit = "B"`; the unscaled integer is rendered, followed by `" B"`. -/
theorem AsMemory_below_1024 (icu : ICU) (I18N : FInternationalization) (n : Nat)
    (Options : Option FNumberFormattingOptions) (TargetCulture : FCulturePtr)
    (hinit : I18N.IsInitialized = true) (hn : n < 1024) :
    FText.AsMemory icu I18N n Options TargetCulture
      = .ok (FText.Format icu I18N
          (NSLOCTEXT "Internationalization" "ComputerMemoryFormatting" "{Number} {Unit}")
          [("Number", .Text (FText.AsNumber icu I18N (FNumber.UInt64 n) Options TargetCulture)),
           ("Unit", .Text (FText.FromString "B"))])
    ∧ (FText.Format icu I18N
          (NSLOCTEXT "Internationalization" "ComputerMemoryFormatting" "{Number} {Unit}")
          [("Number", .Text (FText.AsNumber icu I18N (FNumber.UInt64 n) Options TargetCulture)),
           ("Unit", .Text (FText.FromString "B"))]).DisplayString
      = icu.formatNumber (TargetCulture.getD I18N.GetCurrentCulture) (Options.getD {})
          (FNumber.UInt64 n) ++ " B" := by
  constructor
  · simp [FText.AsMemory, checkf, hinit, hn]
  · rw [Format_Number_Unit]
    apply String.ext
    simp [FText.AsNumber, FText.FromString, String.data_append]

/-- C1, evaluated: 512 bytes render as `"512 B"`. -/
theorem AsMemory_below_1024_witness :
    (512 < 1024) ∧
    (FText.AsMemory DecimalICU InitializedEn 512 none none).map FText.DisplayString
      = .ok "512 B" := by
  refine ⟨by decide, ?_⟩
  rw [(AsMemory_below_1024 DecimalICU InitializedEn 512 none none rfl (by decide)).1]
  rfl

/-! ## `FText::AsMemory`: byte counts from 1024 -/

/-- C2: for every 64-bit byte count `n >= 1024` (registry initialized), the loop of
`FText::AsMemory` divides `n` by 1024 in whole steps exactly while the remaining value exceeds
1,048,576: it ends with `k` steps counted and `r = n / 1024 ^ k` remaining, where `r` no longer
exceeds 1,048,576 and every earlier quotient did. The result is the pattern `"{Number} {Unit}"`
with `Number = AsNumber(r / 1024.0)` and `Unit` the `k`-th letter of `"kMGTPEZY"` followed by
`"B"`. For `n <= 1048576` the loop does not run: `k = 0`, `r = n`, and the unit is `"kB"`. -/
theorem AsMemory_from_1024 (icu : ICU) (I18N : FInternationalization) (n : Nat)
    (Options : Option FNumberFormattingOptions) (TargetCulture : FCulturePtr)
    (hinit : I18N.IsInitialized = true) (hn : 1024 ≤ n) (h64 : n < 2 ^ 64) :
    ∃ (k r : Nat) (c : Char),
      AsMemoryLoop n 0 = (r, k) ∧ r = n / 1024 ^ k ∧ r ≤ 1048576 ∧
      (∀ j, j < k → 1048576 < n / 1024 ^ j) ∧
      Prefixes.data[k]? = some c ∧
      FText.AsMemory icu I18N n Options TargetCulture
        = .ok (FText.Format icu I18N
            (NSLOCTEXT "Internationalization" "ComputerMemoryFormatting" "{Number} {Unit}")
            [("Number", .Text (FText.AsNumber icu I18N (FNumber.Double ((r : ℚ) / 1024)) Options
                TargetCulture)),
             ("Unit", .Text (FText.FromString (String.mk [c] ++ "B")))]) ∧
      (n ≤ 1048576 → k = 0 ∧ r = n ∧ String.mk [c] ++ "B" = "kB") := by
  obtain ⟨k, hloop, hle, hall⟩ := AsMemoryLoop_spec n 0
  have hk : k ≤ 5 := AsMemoryLoop_steps_le n k h64 hall
  have hc : ∃ c, Prefixes.data[k]? = some c := by
    interval_cases k <;> exact ⟨_, rfl⟩
  obtain ⟨c, hc⟩ := hc
  rw [Nat.zero_add] at hloop
  refine ⟨k, n / 1024 ^ k, c, hloop, rfl, hle, hall, hc, ?_, ?_⟩
  · simp [FText.AsMemory, checkf, hinit, Nat.not_lt.mpr hn, hloop, UnitString, hc]
    rfl
  · intro hsmall
    have hk0 : k = 0 := by
      by_contra hne
      have := hall 0 (Nat.pos_of_ne_zero hne)
      simp at this
      omega
    subst hk0
    refine ⟨rfl, by simp, ?_⟩
    have : c = 'k' := by
      have h0 : Prefixes.data[0]? = some 'k' := rfl
      rw [h0] at hc
      exact (Option.some.inj hc).symm
    subst this
    rfl

/-- C2, evaluated: for 1536 bytes the loop does not run, the number handed to `AsNumber` is
`1.5` and the unit is `"kB"`. -/
theorem AsMemory_from_1024_witness :
    (1024 ≤ 1536) ∧ (1536 < 2 ^ 64) ∧ AsMemoryLoop 1536 0 = (1536, 0) ∧
    ∀ (icu : ICU) (Options : Option FNumberFormattingOptions) (TargetCulture : FCulturePtr),
    FText.AsMemory icu InitializedEn 1536 Options TargetCulture
      = .ok (FText.Format icu InitializedEn
          (NSLOCTEXT "Internationalization" "ComputerMemoryFormatting" "{Number} {Unit}")
          [("Number", .Text (FText.AsNumber icu InitializedEn (FNumber.Double (3 / 2)) Options
              TargetCulture)),
           ("Unit", .Text (FText.FromString "kB"))]) := by
  refine ⟨by decide, by norm_num, ?_, ?_⟩
  · obtain ⟨k, r, c, hloop, _, _, _, _, _, hsmall⟩ :=
      AsMemory_from_1024 DecimalICU InitializedEn 1536 none none rfl (by decide) (by norm_num)
    obtain ⟨hk, hr, _⟩ := hsmall (by decide)
    rw [hloop, hk, hr]
  · intro icu Options TargetCulture
    obtain ⟨k, r, c, _, _, _, _, _, hfmt, hsmall⟩ :=
      AsMemory_from_1024 icu InitializedEn 1536 Options TargetCulture rfl (by decide)
        (by norm_num)
    obtain ⟨_, hr, hunit⟩ := hsmall (by decide)
    rw [hfmt, hr, hunit]
    norm_num

/-! ## `FText::AsTimespan`: the hours component -/

/-- The C++ conversion of a `double` to an integer is the floor of a non-negative value and the
ceiling of a negative one. -/
theorem static_cast_int32_eq (q : ℚ) :
    static_cast_int32 q = if 0 ≤ q then ⌊q⌋ else ⌈q⌉ := by
  unfold static_cast_int32
  split
  · rename_i h
    rw [Int.tdiv_eq_ediv (Rat.num_nonneg.mpr h) (by positivity), Rat.floor_def]
  · rename_i h
    have hneg : 0 ≤ -q := by linarith
    have hceil : ⌈q⌉ = -⌊-q⌋ := by rw [Int.floor_neg]; ring
    rw [hceil, Rat.floor_def, Rat.neg_num, Rat.neg_den,
      ← Int.tdiv_eq_ediv (by simpa using Rat.num_nonneg.mpr hneg) (by positivity),
      Int.neg_tdiv, neg_neg]

/-- Converting the exact quotient of two integers is their C++ integer division. -/
theorem static_cast_int32_div (a b : Int) (hb : 0 < b) :
    static_cast_int32 ((a : ℚ) / (b : ℚ)) = Int.tdiv a b := by
  have hbq : (0 : ℚ) < (b : ℚ) := by exact_mod_cast hb
  have hcast : (b : ℚ) = ((b.toNat : ℕ) : ℚ) := by
    have : ((b.toNat : ℕ) : ℤ) = b := Int.toNat_of_nonneg hb.le
    exact_mod_cast this.symm
  have hnat : ((b.toNat : ℕ) : ℤ) = b := Int.toNat_of_nonneg hb.le
  rw [static_cast_int32_eq]
  by_cases ha : 0 ≤ a
  · have hq : (0 : ℚ) ≤ (a : ℚ) / (b : ℚ) := div_nonneg (by exact_mod_cast ha) hbq.le
    rw [if_pos hq, hcast, Rat.floor_intCast_div_natCast, hnat, Int.tdiv_eq_ediv ha hb.le]
  · have ha' : a < 0 := not_le.mp ha
    have hq : ¬ (0 : ℚ) ≤ (a : ℚ) / (b : ℚ) := by
      rw [not_le]
      exact div_neg_of_neg_of_pos (by exact_mod_cast ha') hbq
    have hceil : ⌈(a : ℚ) / (b : ℚ)⌉ = -⌊((-a : ℤ) : ℚ) / (b : ℚ)⌋ := by
      rw [← Int.ceil_neg]
      congr 1
      push_cast
      ring
    rw [if_neg hq, hceil, hcast, Rat.floor_intCast_div_natCast, hnat,
      ← Int.tdiv_eq_ediv (by omega) hb.le, Int.neg_tdiv, neg_neg]

/-- The halving loop computes the binary logarithm whenever its bound is at least `n`. -/
theorem Log2Loop_eq (Fuel : Nat) : ∀ n : Nat, n ≤ Fuel → Log2Loop Fuel n = Nat.log2 n := by
  induction Fuel with
  | zero =>
    intro n hn
    have h0 : n = 0 := by omega
    subst h0
    simp [Log2Loop, Nat.log2]
  | succ Fuel ih =>
    intro n hn
    rw [Nat.log2]
    simp only [Log2Loop]
    by_cases h2 : 2 ≤ n
    · have hhalf : n / 2 ≤ Fuel := by omega
      rw [if_pos h2, if_pos h2, ih (n / 2) hhalf]
    · rw [if_neg h2, if_neg h2]

/-- The bound of the halving loop is never reached: `Log2` is the binary logarithm. -/
theorem Log2_eq_log2 (n : Nat) : Log2 n = Nat.log2 n :=
  Log2Loop_eq n n (Nat.le_refl n)

theorem Log2_lt_53 (a : Nat) (h : a < 2 ^ 53) : Log2 a < 53 := by
  rw [Log2_eq_log2]
  by_cases ha : a = 0
  · subst ha; simp [Nat.log2]
  · exact (Nat.log2_lt ha).mpr h

theorem RoundNearestEven_one (a : Nat) : RoundNearestEven a 1 = a := by
  simp [RoundNearestEven, Nat.mod_one]

/-- An integer below `2 ^ 53` is converted to `double` exactly. -/
theorem DoubleOfNat_of_lt (a : Nat) (h : a < 2 ^ 53) : DoubleOfNat a = a := by
  have h0 : Log2 a - 52 = 0 := by have := Log2_lt_53 a h; omega
  simp [DoubleOfNat, h0, RoundNearestEven_one]

/-- Rounding a quotient that was scaled by more than half the divisor does not reach the next
whole number: the integral part of the rounded value is the integral part of the quotient. -/
theorem RoundNearestEven_mul_div (a b S : Nat) (hb : 0 < b) (hS : b < 2 ^ (S + 1)) :
    RoundNearestEven (a * 2 ^ S) b / 2 ^ S = a / b := by
  have hP : 0 < 2 ^ S := by positivity
  have hS' : b < 2 * 2 ^ S := by rw [pow_succ] at hS; omega
  generalize 2 ^ S = P at hP hS' ⊢
  obtain ⟨k, r, hk, hr, hkdiv⟩ : ∃ k r, a = b * k + r ∧ r < b ∧ a / b = k :=
    ⟨a / b, a % b, (Nat.div_add_mod a b).symm, Nat.mod_lt a hb, rfl⟩
  obtain ⟨F, R, hF, hR, hFdiv, hRmod⟩ :
      ∃ F R, a * P = b * F + R ∧ R < b ∧ a * P / b = F ∧ a * P % b = R :=
    ⟨a * P / b, a * P % b, (Nat.div_add_mod (a * P) b).symm, Nat.mod_lt _ hb, rfl, rfl⟩
  have hN : a * P = b * (k * P) + r * P := by rw [hk]; ring
  have hlowF : k * P ≤ F := by
    by_contra hc
    have h1 : b * (F + 1) ≤ b * (k * P) := Nat.mul_le_mul_left b (by omega)
    nlinarith
  have hrP : r * P + P ≤ b * P := by nlinarith
  have hFlt : F < (k + 1) * P := by
    by_contra hc
    have h1 : b * ((k + 1) * P) ≤ b * F := Nat.mul_le_mul_left b (by omega)
    nlinarith
  have hkey : b ≤ 2 * R → F + 1 < (k + 1) * P := by
    intro h2R
    by_contra hc
    have hFeq : (k + 1) * P ≤ F + 1 := by omega
    have h1 : b * ((k + 1) * P) ≤ b * (F + 1) := Nat.mul_le_mul_left b hFeq
    nlinarith
  rw [hkdiv]
  apply Nat.div_eq_of_lt_le
  · unfold RoundNearestEven
    rw [hFdiv, hRmod]
    split_ifs <;> omega
  · unfold RoundNearestEven
    rw [hFdiv, hRmod]
    show _ < (k + 1) * P
    split_ifs with h1 h2 h3
    · exact hFlt
    · exact hkey (by omega)
    · exact hFlt
    · exact hkey (by omega)

/-- The binary exponent is at most the difference of the bit lengths. -/
theorem BinaryExponent_le (a b : Nat) :
    BinaryExponent a b ≤ (Log2 a : Int) - (Log2 b : Int) := by
  unfold BinaryExponent
  split <;> omega

/-- The ticks per hour are converted to `double` exactly. -/
theorem DoubleOfNat_TicksPerHour :
    DoubleOfNat ETimespan.TicksPerHour.natAbs = 36000000000 :=
  DoubleOfNat_of_lt 36000000000 (by norm_num)

/-- The `Hours` local, in integer arithmetic: the fraction of the `double` total hours with its
fractional part discarded. -/
theorem AsTimespan_Hours_eq (Timespan : FTimespan) :
    FText.AsTimespan.Hours Timespan =
      Int.tdiv (Int.sign Timespan.Ticks *
          (DoubleQuotient (DoubleOfNat Timespan.Ticks.natAbs) 36000000000).1)
        (DoubleQuotient (DoubleOfNat Timespan.Ticks.natAbs) 36000000000).2 := by
  unfold FText.AsTimespan.Hours FTimespan.GetTotalHours
  rw [DoubleOfNat_TicksPerHour]
  apply static_cast_int32_div
  have : 0 < (DoubleQuotient (DoubleOfNat Timespan.Ticks.natAbs) 36000000000).2 := by
    unfold DoubleQuotient
    positivity
  exact_mod_cast this

/-- For a duration below `2 ^ 53` ticks in magnitude the `Hours` local is the C++ integer
quotient of the ticks by the ticks per hour: the rounding of the `double` division does not
reach the next whole hour. -/
theorem AsTimespan_Hours_eq_tdiv (Timespan : FTimespan)
    (hlo : -2 ^ 53 < Timespan.Ticks) (hhi : Timespan.Ticks < 2 ^ 53) :
    FText.AsTimespan.Hours Timespan = Int.tdiv Timespan.Ticks ETimespan.TicksPerHour := by
  have habs : Timespan.Ticks.natAbs < 2 ^ 53 := by omega
  rw [AsTimespan_Hours_eq, DoubleOfNat_of_lt _ habs]
  have hlog : Log2 36000000000 = 35 := by decide
  have he : BinaryExponent Timespan.Ticks.natAbs 36000000000 ≤ 17 := by
    have h1 := BinaryExponent_le Timespan.Ticks.natAbs 36000000000
    have h2 := Log2_lt_53 _ habs
    rw [hlog] at h1
    omega
  obtain ⟨S, hS, hS35⟩ : ∃ S : Nat,
      (52 - BinaryExponent Timespan.Ticks.natAbs 36000000000).toNat = S ∧ 35 ≤ S :=
    ⟨_, rfl, by omega⟩
  have hneg : (BinaryExponent Timespan.Ticks.natAbs 36000000000 - 52).toNat = 0 := by omega
  have hb : (36000000000 : Nat) < 2 ^ (S + 1) :=
    lt_of_lt_of_le (by norm_num : (36000000000 : Nat) < 2 ^ 36)
      (Nat.pow_le_pow_right (by norm_num) (by omega))
  have hdiv := RoundNearestEven_mul_div Timespan.Ticks.natAbs 36000000000 S (by norm_num) hb
  simp only [DoubleQuotient, hS, hneg, pow_zero, Nat.mul_one]
  unfold ETimespan.TicksPerHour
  rcases Int.lt_trichotomy Timespan.Ticks 0 with hneg' | hzero | hpos
  · have hsign : Timespan.Ticks.sign = -1 := Int.sign_eq_neg_one_of_neg hneg'
    have hT : Timespan.Ticks = -(Timespan.Ticks.natAbs : Int) := by omega
    rw [hsign]
    conv_rhs => rw [hT]
    rw [neg_one_mul, Int.neg_tdiv, Int.neg_tdiv,
      Int.tdiv_eq_ediv (by positivity) (by positivity),
      Int.tdiv_eq_ediv (by positivity) (by norm_num)]
    congr 1
    exact_mod_cast hdiv
  · rw [hzero]
    simp
  · have hsign : Timespan.Ticks.sign = 1 := Int.sign_eq_one_of_pos hpos
    have hT : Timespan.Ticks = (Timespan.Ticks.natAbs : Int) := by omega
    rw [hsign]
    conv_rhs => rw [hT]
    rw [one_mul, Int.tdiv_eq_ediv (by positivity) (by positivity),
      Int.tdiv_eq_ediv (by positivity) (by norm_num)]
    exact_mod_cast hdiv

/-- For a duration below `2 ^ 53` ticks in magnitude the hours fit in 32 bits, so the
conversion is defined. -/
theorem AsTimespan_Hours_fits (Timespan : FTimespan)
    (hlo : -2 ^ 53 < Timespan.Ticks) (hhi : Timespan.Ticks < 2 ^ 53) :
    -2 ^ 31 ≤ FText.AsTimespan.Hours Timespan ∧ FText.AsTimespan.Hours Timespan < 2 ^ 31 := by
  rw [AsTimespan_Hours_eq_tdiv Timespan hlo hhi]
  unfold ETimespan.TicksPerHour
  norm_num at hlo hhi ⊢
  by_cases h : 0 ≤ Timespan.Ticks
  · rw [Int.tdiv_eq_ediv h (by decide)]
    omega
  · have hneg : Timespan.Ticks = -(-Timespan.Ticks) := by omega
    rw [hneg, Int.neg_tdiv, Int.tdiv_eq_ediv (by omega) (by decide)]
    omega

/-- C4 as stated fails: for a duration of minus one and a half hours the `Hours` component is
`-1`, while the floor of the total hours is `-2`; and for the non-negative duration of
9007199999999999 ticks, which `(double)` rounds to 9007200000000000, the `Hours` component is
`250200`, while the floor of the exact total hours is `250199`. -/
theorem AsTimespan_Hours_not_floor :
    (FText.AsTimespan.Hours ⟨-54000000000⟩ = -1 ∧
      ⌊FTimespan.ExactTotalHours ⟨-54000000000⟩⌋ = -2) ∧
    (FText.AsTimespan.Hours ⟨9007199999999999⟩ = 250200 ∧
      ⌊FTimespan.ExactTotalHours ⟨9007199999999999⟩⌋ = 250199) := by
  refine ⟨⟨?_, ?_⟩, ?_, ?_⟩
  · rw [AsTimespan_Hours_eq_tdiv _ (by decide) (by decide)]
    decide
  · rw [Int.floor_eq_iff]
    unfold FTimespan.ExactTotalHours ETimespan.TicksPerHour
    norm_num
  · have hD : DoubleOfNat 9007199999999999 = 9007200000000000 := by decide
    have hQ : DoubleQuotient 9007200000000000 36000000000
        = (250200 * 2 ^ 35, 2 ^ 35) := by decide
    rw [AsTimespan_Hours_eq]
    show Int.tdiv (Int.sign 9007199999999999 *
        (DoubleQuotient (DoubleOfNat 9007199999999999) 36000000000).1)
      (DoubleQuotient (DoubleOfNat 9007199999999999) 36000000000).2 = 250200
    rw [hD, hQ]
    decide
  · rw [Int.floor_eq_iff]
    unfold FTimespan.ExactTotalHours ETimespan.TicksPerHour
    norm_num

/-- C4, amended: for every duration the `Hours` component is the total hours, as
`GetTotalHours` computes them in double precision, with the fractional part discarded: their
floor when they are not negative, their ceiling when they are negative. For a duration below
`2 ^ 53` ticks in magnitude this is the exact rational ticks / ticks-per-hour with its
fractional part discarded: its floor for a non-negative duration, its ceiling for a negative
one. -/
theorem AsTimespan_Hours_truncates (icu : ICU) (I18N : FInternationalization)
    (Timespan : FTimespan) (TargetCulture : FCulturePtr) :
    (FText.AsTimespan.TimeArguments icu I18N Timespan TargetCulture).Find "Hours".data
      = some (.Int (FText.AsTimespan.Hours Timespan)) ∧
    FText.AsTimespan.Hours Timespan =
      (if 0 ≤ Timespan.GetTotalHours then ⌊Timespan.GetTotalHours⌋
        else ⌈Timespan.GetTotalHours⌉) ∧
    (-2 ^ 53 < Timespan.Ticks → Timespan.Ticks < 2 ^ 53 →
      FText.AsTimespan.Hours Timespan =
        (if 0 ≤ Timespan.ExactTotalHours then ⌊Timespan.ExactTotalHours⌋
          else ⌈Timespan.ExactTotalHours⌉)) := by
  refine ⟨rfl, static_cast_int32_eq _, ?_⟩
  intro hlo hhi
  rw [AsTimespan_Hours_eq_tdiv Timespan hlo hhi, ← static_cast_int32_eq]
  unfold FTimespan.ExactTotalHours
  exact (static_cast_int32_div _ _ (by decide)).symm

/-- C4, amended, evaluated: for minus one and a half hours the `Hours` component is the ceiling
`-1` of the exact total hours. -/
theorem AsTimespan_Hours_truncates_witness :
    FText.AsTimespan.Hours ⟨-54000000000⟩ =
      (if 0 ≤ FTimespan.ExactTotalHours ⟨-54000000000⟩
        then ⌊FTimespan.ExactTotalHours ⟨-54000000000⟩⌋
        else ⌈FTimespan.ExactTotalHours ⟨-54000000000⟩⌉) ∧
    FText.AsTimespan.Hours ⟨-54000000000⟩ = -1 :=
  ⟨(AsTimespan_Hours_truncates DecimalICU InitializedEn ⟨-54000000000⟩ none).2.2
      (by decide) (by decide),
    by rw [AsTimespan_Hours_eq_tdiv _ (by decide) (by decide)]; decide⟩

/-! ## `FText::AsTimespan`: formatting of the components -/

/-- The pattern `"{Hours}:{Minutes}:{Seconds}"` with a value bound to each of its three names
renders as the three values separated by colons. -/
theorem Format_Hours_Minutes_Seconds (icu : ICU) (I18N : FInternationalization)
    (Hours Minutes Seconds : FFormatArgumentValue) :
    (FText.Format icu I18N (NSLOCTEXT "Timespan" "FormatPattern" "{Hours}:{Minutes}:{Seconds}")
      [("Hours", Hours), ("Minutes", Minutes), ("Seconds", Seconds)]).DisplayString
      = Hours.ToFormattedString icu I18N ++ ":" ++ Minutes.ToFormattedString icu I18N ++ ":"
          ++ Seconds.ToFormattedString icu I18N := by
  apply String.ext
  simp [FText.Format, NSLOCTEXT, substituteArguments, FFormatNamedArguments.Find,
    String.data_append]

/-- What `FText::AsTimespan` returns once the registry is initialized. -/
theorem AsTimespan_ok (icu : ICU) (I18N : FInternationalization) (Timespan : FTimespan)
    (TargetCulture : FCulturePtr) (hinit : I18N.IsInitialized = true) :
    FText.AsTimespan icu I18N Timespan TargetCulture
      = .ok (FText.Format icu I18N
          (NSLOCTEXT "Timespan" "FormatPattern" "{Hours}:{Minutes}:{Seconds}")
          [("Hours", .Int (FText.AsTimespan.Hours Timespan)),
           ("Minutes", .Text (FText.AsNumber icu I18N (FNumber.Int32 Timespan.GetMinutes)
              (some { MinimumIntegralDigits := 2, MaximumIntegralDigits := 2 })
              (FText.AsTimespan.Culture I18N TargetCulture))),
           ("Seconds", .Text (FText.AsNumber icu I18N (FNumber.Int32 Timespan.GetSeconds)
              (some { MinimumIntegralDigits := 2, MaximumIntegralDigits := 2 })
              (FText.AsTimespan.Culture I18N TargetCulture)))]) := by
  simp [FText.AsTimespan, checkf, hinit, FText.AsTimespan.TimeArguments,
    FText.AsTimespan.NumberFormattingOptions]

/-- The components of one hour, five minutes and nine seconds. -/
theorem Timespan_1h5m9s :
    FText.AsTimespan.Hours ⟨39090000000⟩ = 1 ∧ FTimespan.GetMinutes ⟨39090000000⟩ = 5 ∧
      FTimespan.GetSeconds ⟨39090000000⟩ = 9 :=
  ⟨by rw [AsTimespan_Hours_eq_tdiv _ (by decide) (by decide)]; decide, by decide, by decide⟩

/-- C3 as stated fails: for a duration of 1h 5m 9s the `Hours` argument is the plain integer
`1`, not a text made by `AsNumber` with two integral digits, and the text rendered (ASCII
digits, formatter honouring the digit bounds) is `"1:05:09"`, not `"01:05:09"`. -/
theorem AsTimespan_Hours_not_two_digits :
    (FText.AsTimespan.TimeArguments DecimalICU InitializedEn ⟨39090000000⟩ none).Find
        "Hours".data = some (.Int 1) ∧
    (FText.AsTimespan DecimalICU InitializedEn ⟨39090000000⟩ none).map FText.DisplayString
      = .ok "1:05:09" ∧
    (FText.AsTimespan DecimalICU InitializedEn ⟨39090000000⟩ none).map FText.DisplayString
      ≠ .ok "01:05:09" := by
  have hdisp : (FText.AsTimespan DecimalICU InitializedEn ⟨39090000000⟩ none).map
      FText.DisplayString = .ok "1:05:09" := by
    rw [AsTimespan_ok DecimalICU InitializedEn ⟨39090000000⟩ none rfl]
    simp only [Except.map, Format_Hours_Minutes_Seconds, Timespan_1h5m9s.1, Timespan_1h5m9s.2.1,
      Timespan_1h5m9s.2.2]
    rfl
  refine ⟨?_, hdisp, ?_⟩
  · show some (FFormatArgumentValue.Int (FText.AsTimespan.Hours ⟨39090000000⟩)) = _
    rw [Timespan_1h5m9s.1]
  · rw [hdisp]
    intro h
    injection h with h
    revert h
    decide

/-- C3, amended: for every duration (registry initialized) `FText::AsTimespan` formats the
minutes and the seconds as numbers via `AsNumber` with `MinimumIntegralDigits =
MaximumIntegralDigits = 2` before substituting them into the `"{Hours}:{Minutes}:{Seconds}"`
pattern, and substitutes the hours as a plain integer argument: the text is the formatted hours
argument, the two-digit minutes and the two-digit seconds, separated by colons. -/
theorem AsTimespan_components (icu : ICU) (I18N : FInternationalization) (Timespan : FTimespan)
    (TargetCulture : FCulturePtr) (hinit : I18N.IsInitialized = true) :
    ∃ Text : FText, FText.AsTimespan icu I18N Timespan TargetCulture = .ok Text ∧
      Text = FText.Format icu I18N
          (NSLOCTEXT "Timespan" "FormatPattern" "{Hours}:{Minutes}:{Seconds}")
          [("Hours", .Int (FText.AsTimespan.Hours Timespan)),
           ("Minutes", .Text (FText.AsNumber icu I18N (FNumber.Int32 Timespan.GetMinutes)
              (some { MinimumIntegralDigits := 2, MaximumIntegralDigits := 2 })
              (FText.AsTimespan.Culture I18N TargetCulture))),
           ("Seconds", .Text (FText.AsNumber icu I18N (FNumber.Int32 Timespan.GetSeconds)
              (some { MinimumIntegralDigits := 2, MaximumIntegralDigits := 2 })
              (FText.AsTimespan.Culture I18N TargetCulture)))] ∧
      Text.DisplayString =
        (FFormatArgumentValue.Int (FText.AsTimespan.Hours Timespan)).ToFormattedString icu I18N
          ++ ":" ++
        icu.formatNumber ((FText.AsTimespan.Culture I18N TargetCulture).getD
            I18N.GetCurrentCulture) { MinimumIntegralDigits := 2, MaximumIntegralDigits := 2 }
            (FNumber.Int32 Timespan.GetMinutes)
          ++ ":" ++
        icu.formatNumber ((FText.AsTimespan.Culture I18N TargetCulture).getD
            I18N.GetCurrentCulture) { MinimumIntegralDigits := 2, MaximumIntegralDigits := 2 }
            (FNumber.Int32 Timespan.GetSeconds) := by
  refine ⟨_, AsTimespan_ok icu I18N Timespan TargetCulture hinit, rfl, ?_⟩
  rw [Format_Hours_Minutes_Seconds]
  rfl

/-- C3, amended, evaluated: 1h 5m 9s renders as `"1:05:09"`. -/
theorem AsTimespan_components_witness :
    InitializedEn.IsInitialized = true ∧
    ∃ Text : FText, FText.AsTimespan DecimalICU InitializedEn ⟨39090000000⟩ none = .ok Text ∧
      Text.DisplayString = "1:05:09" := by
  refine ⟨rfl, ?_⟩
  obtain ⟨Text, hok, _, hdisp⟩ :=
    AsTimespan_components DecimalICU InitializedEn ⟨39090000000⟩ none rfl
  refine ⟨Text, hok, ?_⟩
  rw [hdisp, Timespan_1h5m9s.1, Timespan_1h5m9s.2.1, Timespan_1h5m9s.2.2]
  rfl

/-! ## The initialization check of the formatters -/

/-- The entry check of `FText::AsMemory` is the only assertion it can fail. -/
theorem AsMemory_AssertionFailed_iff (icu : ICU) (I18N : FInternationalization) (NumBytes : Nat)
    (Options : Option FNumberFormattingOptions) (TargetCulture : FCulturePtr) :
    FText.AsMemory icu I18N NumBytes Options TargetCulture = .error Failure.AssertionFailed
      ↔ I18N.IsInitialized = false := by
  cases hinit : I18N.IsInitialized
  · simp [FText.AsMemory, checkf, hinit]
    rfl
  · by_cases hn : NumBytes < 1024
    · simp [FText.AsMemory, checkf, hinit, hn]
    · simp only [FText.AsMemory, checkf, hinit, hn, UnitString]
      cases hc : Prefixes.data[(AsMemoryLoop NumBytes 0).2]? <;>
        simp [hc, bind, Except.bind, pure, Except.pure, Functor.map, Except.map]

/-- C5: each of `AsDate`, `AsTime`, `AsDateTime`, `AsTimespan` and `AsMemory` ends in an
assertion failure, producing no text, exactly when the internationalization registry is not
initialized: it does so for every input and every target culture (given or not) when the
registry is not initialized, and never when it is. -/
theorem formatters_check_initialized (icu : ICU) (I18N : FInternationalization)
    (DateTime : FDateTime) (DateStyle TimeStyle : EDateTimeStyle) (TimeZone : String)
    (Timespan : FTimespan) (NumBytes : Nat) (Options : Option FNumberFormattingOptions)
    (TargetCulture : FCulturePtr) :
    (FText.AsDate icu I18N DateTime DateStyle TimeZone TargetCulture
        = .error Failure.AssertionFailed ↔ I18N.IsInitialized = false) ∧
    (FText.AsTime icu I18N DateTime TimeStyle TimeZone TargetCulture
        = .error Failure.AssertionFailed ↔ I18N.IsInitialized = false) ∧
    (FText.AsDateTime icu I18N DateTime DateStyle TimeStyle TimeZone TargetCulture
        = .error Failure.AssertionFailed ↔ I18N.IsInitialized = false) ∧
    (FText.AsTimespan icu I18N Timespan TargetCulture
        = .error Failure.AssertionFailed ↔ I18N.IsInitialized = false) ∧
    (FText.AsMemory icu I18N NumBytes Options TargetCulture
        = .error Failure.AssertionFailed ↔ I18N.IsInitialized = false) := by
  refine ⟨?_, ?_, ?_, ?_, AsMemory_AssertionFailed_iff icu I18N NumBytes Options TargetCulture⟩
  · cases hinit : I18N.IsInitialized <;> cases TargetCulture <;>
      simp [FText.AsDate, checkf, hinit, FCulturePtr.IsValid]
  · cases hinit : I18N.IsInitialized <;> cases TargetCulture <;>
      simp [FText.AsTime, checkf, hinit, FCulturePtr.IsValid]
  · cases hinit : I18N.IsInitialized <;> cases TargetCulture <;>
      simp [FText.AsDateTime, checkf, hinit, FCulturePtr.IsValid]
  · cases hinit : I18N.IsInitialized <;>
      simp [FText.AsTimespan, checkf, hinit]

/-! ## The culture used by the formatters -/

/-- The chronological formatters render with the formatter of the target culture when one is
given and with the formatter of the current culture otherwise. -/
theorem chronological_formatters_culture (icu : ICU) (I18N : FInternationalization)
    (DateTime : FDateTime) (DateStyle TimeStyle : EDateTimeStyle) (TimeZone : String)
    (TargetCulture : FCulturePtr) (hinit : I18N.IsInitialized = true) :
    (FText.AsDate icu I18N DateTime DateStyle TimeZone TargetCulture).map FText.DisplayString
      = .ok (icu.formatDate (TargetCulture.getD I18N.GetCurrentCulture) DateStyle TimeZone
          (DateTime.UnixTimestamp * 1000)) ∧
    (FText.AsTime icu I18N DateTime TimeStyle TimeZone TargetCulture).map FText.DisplayString
      = .ok (icu.formatTime (TargetCulture.getD I18N.GetCurrentCulture) TimeStyle TimeZone
          (DateTime.UnixTimestamp * 1000)) ∧
    (FText.AsDateTime icu I18N DateTime DateStyle TimeStyle TimeZone TargetCulture).map
        FText.DisplayString
      = .ok (icu.formatDateTime (TargetCulture.getD I18N.GetCurrentCulture) DateStyle TimeStyle
          TimeZone (DateTime.UnixTimestamp * 1000)) := by
  refine ⟨?_, ?_, ?_⟩ <;> cases TargetCulture <;>
    simp [FText.AsDate, FText.AsTime, FText.AsDateTime, checkf, hinit, FCulturePtr.IsValid,
      U_MILLIS_PER_SECOND, Except.map]

/-- C6, evaluated: with current culture `en` (ASCII digits) and target culture `ar`
(Arabic-Indic digits), `FText::AsTimespan` of 1h 5m 9s writes the minutes and the seconds with
the digits of `ar` but the hours with the digits of `en`; with `ar` as the current culture all
three components are written with the digits of `ar`. -/
theorem AsTimespan_Hours_current_culture :
    (FText.AsTimespan DecimalICU InitializedEn ⟨39090000000⟩ (some ⟨"ar"⟩)).map
        FText.DisplayString = .ok "1:\u0660\u0665:\u0660\u0669" ∧
    (FText.AsTimespan DecimalICU InitializedAr ⟨39090000000⟩ (some ⟨"ar"⟩)).map
        FText.DisplayString = .ok "\u0661:\u0660\u0665:\u0660\u0669" := by
  constructor
  · rw [AsTimespan_ok DecimalICU InitializedEn ⟨39090000000⟩ (some ⟨"ar"⟩) rfl]
    simp only [Except.map, Format_Hours_Minutes_Seconds, Timespan_1h5m9s.1,
      Timespan_1h5m9s.2.1, Timespan_1h5m9s.2.2]
    rfl
  · rw [AsTimespan_ok DecimalICU InitializedAr ⟨39090000000⟩ (some ⟨"ar"⟩) rfl]
    simp only [Except.map, Format_Hours_Minutes_Seconds, Timespan_1h5m9s.1,
      Timespan_1h5m9s.2.1, Timespan_1h5m9s.2.2]
    rfl

/-! ## `TextBiDi`: the base direction `Mixed` -/

/-- `GetParagraphDirection` rejects `Mixed` and maps the two other directions to levels 0, 1. -/
theorem GetParagraphDirection_eq (InBaseDirection : ETextDirection) :
    TextBiDi.Internal.GetParagraphDirection InBaseDirection =
      match InBaseDirection with
      | .LeftToRight => .ok 0
      | .RightToLeft => .ok 1
      | .Mixed => .error Failure.AssertionFailed := by
  cases InBaseDirection <;> rfl

/-- C7 as stated fails: with base direction `Mixed`, a zero-length text returns `LeftToRight`
normally, and so does a non-empty text when no BiDi object can be created. -/
theorem ComputeTextDirection_Mixed_returns :
    TextBiDi.ComputeTextDirectionInfo DecimalICU "" 0 0 ETextDirection.Mixed []
      = .ok (ETextDirection.LeftToRight, []) ∧
    TextBiDi.ComputeTextDirectionInfo_String TwoRunICU "" ETextDirection.Mixed []
      = .ok (ETextDirection.LeftToRight, []) ∧
    TextBiDi.ComputeTextDirectionInfo DecimalICU "abc" 0 3 ETextDirection.Mixed []
      = .ok (ETextDirection.LeftToRight, []) :=
  ⟨rfl, rfl, rfl⟩

/-- C7, amended: with base direction `Mixed`, `ComputeTextDirection(text, Mixed, runs)` ends in
an assertion failure for every text of non-zero length for which the BiDi object is created;
the reusable analyzer does so for every text of non-zero length. -/
theorem ComputeTextDirection_Mixed_rejected (icu : ICU) (InString : String)
    (InStringStartIndex InStringLen : Int) (OutTextDirectionInfo : List FTextDirectionInfo)
    (This : TextBiDi.Internal.FICUTextBiDi) (hlen : InStringLen ≠ 0) :
    (((icu.ubidi_openSized
          (icu.ConvertString InString InStringStartIndex InStringLen).length 0).1.isSome = true ∧
        U_SUCCESS (icu.ubidi_openSized
          (icu.ConvertString InString InStringStartIndex InStringLen).length 0).2 = true) →
      TextBiDi.ComputeTextDirectionInfo icu InString InStringStartIndex InStringLen
        ETextDirection.Mixed OutTextDirectionInfo = .error Failure.AssertionFailed) ∧
    TextBiDi.Internal.FICUTextBiDi.ComputeTextDirectionInfo icu This InString InStringStartIndex
      InStringLen ETextDirection.Mixed OutTextDirectionInfo = .error Failure.AssertionFailed := by
  constructor
  · rintro ⟨hptr, hst⟩
    simp [TextBiDi.ComputeTextDirectionInfo, hlen, hptr, hst,
      TextBiDi.Internal.ComputeTextDirectionInfo, GetParagraphDirection_eq]
    rfl
  · simp [TextBiDi.Internal.FICUTextBiDi.ComputeTextDirectionInfo, hlen,
      TextBiDi.Internal.ComputeTextDirectionInfo, GetParagraphDirection_eq]
    rfl

/-- C7, amended, evaluated: the text `"abc"` with base direction `Mixed` is rejected when the
BiDi object is created. -/
theorem ComputeTextDirection_Mixed_rejected_witness :
    ((3 : Int) ≠ 0) ∧
    TextBiDi.ComputeTextDirectionInfo TwoRunICU "abc" 0 3 ETextDirection.Mixed []
      = .error Failure.AssertionFailed ∧
    TextBiDi.Internal.FICUTextBiDi.ComputeTextDirectionInfo TwoRunICU
      (TextBiDi.Internal.FICUTextBiDi.Create TwoRunICU) "abc" 0 3 ETextDirection.Mixed []
      = .error Failure.AssertionFailed :=
  ⟨by decide,
    (ComputeTextDirection_Mixed_rejected TwoRunICU "abc" 0 3 []
      (TextBiDi.Internal.FICUTextBiDi.Create TwoRunICU) (by decide)).1 ⟨rfl, rfl⟩,
    (ComputeTextDirection_Mixed_rejected TwoRunICU "abc" 0 3 []
      (TextBiDi.Internal.FICUTextBiDi.Create TwoRunICU) (by decide)).2⟩

/-! ## `TextBiDi`: zero-length input -/

/-- C8: for every environment (so whatever the BiDi algorithm would answer), string, start
offset, base direction and prior content of the run list, a zero-length input makes
`ComputeBaseDirection`, `ComputeTextDirection(text)` and `ComputeTextDirection(text, base,
runs)` return `LeftToRight` with an empty run list; the reusable analyzer does the same and its
retained state is left as it was. The same holds for the empty `FString`. -/
theorem zero_length_LeftToRight (icu : ICU) (InString : String) (InStringStartIndex : Int)
    (InBaseDirection : ETextDirection) (OutTextDirectionInfo : List FTextDirectionInfo)
    (This : TextBiDi.Internal.FICUTextBiDi) :
    TextBiDi.ComputeBaseDirection icu InString InStringStartIndex 0
      = ETextDirection.LeftToRight ∧
    TextBiDi.ComputeTextDirection icu InString InStringStartIndex 0
      = .ok ETextDirection.LeftToRight ∧
    TextBiDi.ComputeTextDirectionInfo icu InString InStringStartIndex 0 InBaseDirection
      OutTextDirectionInfo = .ok (ETextDirection.LeftToRight, []) ∧
    TextBiDi.Internal.FICUTextBiDi.ComputeBaseDirection icu This InString InStringStartIndex 0
      = (ETextDirection.LeftToRight, This) ∧
    TextBiDi.Internal.FICUTextBiDi.ComputeTextDirection icu This InString InStringStartIndex 0
      = .ok (ETextDirection.LeftToRight, This) ∧
    TextBiDi.Internal.FICUTextBiDi.ComputeTextDirectionInfo icu This InString InStringStartIndex
      0 InBaseDirection OutTextDirectionInfo = .ok (ETextDirection.LeftToRight, [], This) ∧
    TextBiDi.ComputeBaseDirection_String icu "" = ETextDirection.LeftToRight ∧
    TextBiDi.ComputeTextDirection_String icu "" = .ok ETextDirection.LeftToRight ∧
    TextBiDi.ComputeTextDirectionInfo_String icu "" InBaseDirection OutTextDirectionInfo
      = .ok (ETextDirection.LeftToRight, []) ∧
    TextBiDi.Internal.FICUTextBiDi.ComputeBaseDirection_String icu This ""
      = (ETextDirection.LeftToRight, This) ∧
    TextBiDi.Internal.FICUTextBiDi.ComputeTextDirection_String icu This ""
      = .ok (ETextDirection.LeftToRight, This) ∧
    TextBiDi.Internal.FICUTextBiDi.ComputeTextDirectionInfo_String icu This "" InBaseDirection
      OutTextDirectionInfo = .ok (ETextDirection.LeftToRight, [], This) :=
  ⟨rfl, rfl, rfl, rfl, rfl, rfl, rfl, rfl, rfl, rfl, rfl, rfl⟩

/-! ## `TextBiDi`: the runs of a successful analysis -/

/-- The output entry made from the visual run at `RunIndex`: its direction mapped by `ICUToUE`,
its logical start shifted by the caller's offset, its length unchanged. -/
def RunInfo (Para : UBiDiPara) (InStringOffset : Int) (RunIndex : Nat) : FTextDirectionInfo :=
  { TextDirection := TextBiDi.Internal.ICUToUE (Para.getVisualRun RunIndex).1
    StartIndex := (Para.getVisualRun RunIndex).2.1 + InStringOffset
    Length := (Para.getVisualRun RunIndex).2.2 }

/-- The run loop over freshly added zeroed entries overwrites them, in order, with the visual
runs. -/
theorem FillRuns_replicate (Para : UBiDiPara) (InStringOffset : Int) (Count : Nat) :
    ∀ (RunIndex : Nat) (Filled : List FTextDirectionInfo), Filled.length = RunIndex →
      TextBiDi.Internal.FillRuns Para InStringOffset Count RunIndex
          (Filled ++ List.replicate Count FTextDirectionInfo.Zeroed)
        = Filled ++ (List.range' RunIndex Count).map (RunInfo Para InStringOffset) := by
  induction Count with
  | zero => intro RunIndex Filled _; simp [TextBiDi.Internal.FillRuns]
  | succ Count ih =>
    intro RunIndex Filled hlen
    have hset : (Filled ++ List.replicate (Count + 1) FTextDirectionInfo.Zeroed).set RunIndex
        (RunInfo Para InStringOffset RunIndex)
        = (Filled ++ [RunInfo Para InStringOffset RunIndex])
            ++ List.replicate Count FTextDirectionInfo.Zeroed := by
      subst hlen
      simp [List.replicate_succ]
    have hstep := ih (RunIndex + 1) (Filled ++ [RunInfo Para InStringOffset RunIndex])
      (by simp [hlen])
    simp only [TextBiDi.Internal.FillRuns, Int.toNat_ofNat]
    rw [show (RunIndex : Int) + 1 = ((RunIndex + 1 : Nat) : Int) by push_cast; rfl]
    have hinfo : (⟨(Para.getVisualRun RunIndex).2.1 + InStringOffset,
        (Para.getVisualRun RunIndex).2.2,
        TextBiDi.Internal.ICUToUE (Para.getVisualRun RunIndex).1⟩ : FTextDirectionInfo)
        = RunInfo Para InStringOffset RunIndex := rfl
    rw [hinfo, hset, hstep]
    simp [List.range'_succ]

/-- What the internal analysis returns, from an empty array, when `ubidi_setPara` succeeds with
a run count that is not negative. -/
theorem Internal_ComputeTextDirectionInfo_ok (icu : ICU) (InICUBiDi : UBiDiPtr)
    (InICUString : UnicodeString) (InStringOffset : Int) (InBaseDirection : ETextDirection)
    (Level : UBiDiLevel) (ParaStatus : UErrorCode) (Para : UBiDiPara)
    (hlevel : TextBiDi.Internal.GetParagraphDirection InBaseDirection = .ok Level)
    (hpara : icu.ubidi_setPara InICUBiDi InICUString Level = (ParaStatus, Para))
    (hparaok : U_SUCCESS ParaStatus = true)
    (hcount : 0 ≤ Para.countRuns) :
    TextBiDi.Internal.ComputeTextDirectionInfo icu InICUBiDi InICUString InStringOffset
        InBaseDirection []
      = .ok (TextBiDi.Internal.ICUToUE Para.getDirection,
          (List.range' 0 Para.countRuns.toNat).map (RunInfo Para InStringOffset)) := by
  have hfill := FillRuns_replicate Para InStringOffset Para.countRuns.toNat 0 [] rfl
  simp only [List.nil_append, Nat.cast_zero] at hfill
  unfold TextBiDi.Internal.ComputeTextDirectionInfo
  rw [hlevel]
  simp only [bind, Except.bind, hpara, hparaok, if_true, AddZeroed, check, hcount, decide_True,
    pure, Except.pure, List.nil_append, hfill]

/-- C9: when the BiDi object is created, `ubidi_setPara` succeeds and the run count is not
negative, `ComputeTextDirection(text, offset, len, base, runs)` returns the overall direction
and exactly as many runs as the run count, the `i`-th output entry being made from the `i`-th
visual run: its own direction, its length unchanged, and its logical start within the analysed
sub-range plus the caller's start offset. -/
theorem ComputeTextDirection_runs (icu : ICU) (InString : String)
    (InStringStartIndex InStringLen : Int) (InBaseDirection : ETextDirection)
    (OutTextDirectionInfo : List FTextDirectionInfo) (ICUBiDi : UBiDi) (OpenStatus : UErrorCode)
    (Level : UBiDiLevel) (ParaStatus : UErrorCode) (Para : UBiDiPara)
    (hlen : InStringLen ≠ 0)
    (hopen : icu.ubidi_openSized
      (icu.ConvertString InString InStringStartIndex InStringLen).length 0
        = (some ICUBiDi, OpenStatus))
    (hopenok : U_SUCCESS OpenStatus = true)
    (hlevel : TextBiDi.Internal.GetParagraphDirection InBaseDirection = .ok Level)
    (hpara : icu.ubidi_setPara (some ICUBiDi)
      (icu.ConvertString InString InStringStartIndex InStringLen) Level = (ParaStatus, Para))
    (hparaok : U_SUCCESS ParaStatus = true)
    (hcount : 0 ≤ Para.countRuns) :
    TextBiDi.ComputeTextDirectionInfo icu InString InStringStartIndex InStringLen
        InBaseDirection OutTextDirectionInfo
      = .ok (TextBiDi.Internal.ICUToUE Para.getDirection,
          (List.range Para.countRuns.toNat).map (fun (i : Nat) =>
            ({ TextDirection := TextBiDi.Internal.ICUToUE (Para.getVisualRun i).1
               StartIndex := (Para.getVisualRun i).2.1 + InStringStartIndex
               Length := (Para.getVisualRun i).2.2 } : FTextDirectionInfo))) ∧
    (((List.range Para.countRuns.toNat).map (fun (i : Nat) =>
            ({ TextDirection := TextBiDi.Internal.ICUToUE (Para.getVisualRun i).1
               StartIndex := (Para.getVisualRun i).2.1 + InStringStartIndex
               Length := (Para.getVisualRun i).2.2 } : FTextDirectionInfo))).length : Int)
      = Para.countRuns := by
  constructor
  · have hint := Internal_ComputeTextDirectionInfo_ok icu (some ICUBiDi)
      (icu.ConvertString InString InStringStartIndex InStringLen) InStringStartIndex
      InBaseDirection Level ParaStatus Para hlevel hpara hparaok hcount
    simp [TextBiDi.ComputeTextDirectionInfo, hlen, hopen, hopenok, Reset, hint,
      List.range_eq_range']
    intro a _
    rfl
  · simp [Int.toNat_of_nonneg hcount]

/-- C9, evaluated: analysing five code units at offset 10 in a right-to-left paragraph returns
the two runs in visual order, their starts shifted by 10. -/
theorem ComputeTextDirection_runs_witness :
    TextBiDi.ComputeTextDirectionInfo TwoRunICU "0123456789abcde" 10 5
        ETextDirection.RightToLeft [⟨7, 7, ETextDirection.Mixed⟩]
      = .ok (ETextDirection.Mixed,
          [⟨13, 2, ETextDirection.RightToLeft⟩, ⟨10, 3, ETextDirection.LeftToRight⟩]) := by
  rw [(ComputeTextDirection_runs TwoRunICU "0123456789abcde" 10 5 ETextDirection.RightToLeft
      [⟨7, 7, ETextDirection.Mixed⟩] ⟨0⟩ 0 1 0
      ⟨UBiDiDirection.UBIDI_MIXED, 2, TwoRunVisualRun 1⟩ (by decide) rfl rfl rfl rfl rfl
      (by decide)).1]
  rfl

/-! ## `TextBiDi`: failure of the underlying algorithm -/

/-- C10: if the BiDi object cannot be created, or it is created and the `ubidi_setPara` call
that is made, at the level of the base direction, fails, `ComputeTextDirection` does not raise:
it returns `LeftToRight` with no runs, whatever the base direction and whatever the output list
held before the call. (With base direction `Mixed` and the object created no `ubidi_setPara`
call is made.) The overload without runs returns `LeftToRight` likewise. -/
theorem ComputeTextDirection_fails_open (icu : ICU) (InString : String)
    (InStringStartIndex InStringLen : Int) (InBaseDirection : ETextDirection)
    (OutTextDirectionInfo : List FTextDirectionInfo) :
    ((¬ ((icu.ubidi_openSized
            (icu.ConvertString InString InStringStartIndex InStringLen).length 0).1.isSome = true
          ∧ U_SUCCESS (icu.ubidi_openSized
            (icu.ConvertString InString InStringStartIndex InStringLen).length 0).2 = true)
        ∨ ∃ Level : UBiDiLevel,
            TextBiDi.Internal.GetParagraphDirection InBaseDirection = .ok Level ∧
            U_SUCCESS (icu.ubidi_setPara
              (icu.ubidi_openSized
                (icu.ConvertString InString InStringStartIndex InStringLen).length 0).1
              (icu.ConvertString InString InStringStartIndex InStringLen) Level).1 = false) →
      TextBiDi.ComputeTextDirectionInfo icu InString InStringStartIndex InStringLen
        InBaseDirection OutTextDirectionInfo = .ok (ETextDirection.LeftToRight, [])) ∧
    ((¬ ((icu.ubidi_openSized
            (icu.ConvertString InString InStringStartIndex InStringLen).length 0).1.isSome = true
          ∧ U_SUCCESS (icu.ubidi_openSized
            (icu.ConvertString InString InStringStartIndex InStringLen).length 0).2 = true)
        ∨ U_SUCCESS (icu.ubidi_setPara
              (icu.ubidi_openSized
                (icu.ConvertString InString InStringStartIndex InStringLen).length 0).1
              (icu.ConvertString InString InStringStartIndex InStringLen) 0).1 = false) →
      TextBiDi.ComputeTextDirection icu InString InStringStartIndex InStringLen
        = .ok ETextDirection.LeftToRight) := by
  constructor
  · intro hfail
    by_cases hlen : InStringLen = 0
    · subst hlen
      rfl
    by_cases hopen : (icu.ubidi_openSized
          (icu.ConvertString InString InStringStartIndex InStringLen).length 0).1.isSome = true
        ∧ U_SUCCESS (icu.ubidi_openSized
          (icu.ConvertString InString InStringStartIndex InStringLen).length 0).2 = true
    · rcases hfail with hno | ⟨Level, hlevel, hpara⟩
      · exact absurd hopen hno
      · have hint : TextBiDi.Internal.ComputeTextDirectionInfo icu
            (icu.ubidi_openSized
              (icu.ConvertString InString InStringStartIndex InStringLen).length 0).1
            (icu.ConvertString InString InStringStartIndex InStringLen) InStringStartIndex
            InBaseDirection [] = .ok (ETextDirection.LeftToRight, []) := by
          unfold TextBiDi.Internal.ComputeTextDirectionInfo
          rw [hlevel]
          simp only [bind, Except.bind, hpara, pure, Except.pure]
          rfl
        simp [TextBiDi.ComputeTextDirectionInfo, hlen, hopen.1, hopen.2, Reset, hint]
    · simp only [TextBiDi.ComputeTextDirectionInfo, Reset]
      rw [if_neg (by simpa using hlen)]
      simp only [Bool.and_eq_true]
      rw [if_neg hopen]
      rfl
  · intro hfail
    by_cases hlen : InStringLen = 0
    · subst hlen
      rfl
    by_cases hopen : (icu.ubidi_openSized
          (icu.ConvertString InString InStringStartIndex InStringLen).length 0).1.isSome = true
        ∧ U_SUCCESS (icu.ubidi_openSized
          (icu.ConvertString InString InStringStartIndex InStringLen).length 0).2 = true
    · rcases hfail with hno | hpara
      · exact absurd hopen hno
      · have hint : TextBiDi.Internal.ComputeTextDirection icu
            (icu.ubidi_openSized
              (icu.ConvertString InString InStringStartIndex InStringLen).length 0).1
            (icu.ConvertString InString InStringStartIndex InStringLen)
            = .ok ETextDirection.LeftToRight := by
          unfold TextBiDi.Internal.ComputeTextDirection
          rw [show TextBiDi.Internal.GetParagraphDirection ETextDirection.LeftToRight = .ok 0
            from rfl]
          simp only [bind, Except.bind, hpara, pure, Except.pure]
          rfl
        simp [TextBiDi.ComputeTextDirection, hlen, hopen.1, hopen.2, hint]
    · simp only [TextBiDi.ComputeTextDirection]
      rw [if_neg (by simpa using hlen)]
      simp only [Bool.and_eq_true]
      rw [if_neg hopen]
      rfl

/-- C10, evaluated: with no BiDi object available the call returns `LeftToRight` with no runs
even for base direction `Mixed`; with the object created it does so for base direction
`RightToLeft` both where every `ubidi_setPara` fails and where only the one at level 1 does. -/
theorem ComputeTextDirection_fails_open_witness :
    TextBiDi.ComputeTextDirectionInfo DecimalICU "abc" 0 3 ETextDirection.Mixed
        [⟨7, 7, ETextDirection.Mixed⟩] = .ok (ETextDirection.LeftToRight, []) ∧
    TextBiDi.ComputeTextDirectionInfo FailingParaICU "abc" 0 3 ETextDirection.RightToLeft
        [⟨7, 7, ETextDirection.Mixed⟩] = .ok (ETextDirection.LeftToRight, []) ∧
    TextBiDi.ComputeTextDirectionInfo RtlFailingICU "abc" 0 3 ETextDirection.RightToLeft
        [⟨7, 7, ETextDirection.Mixed⟩] = .ok (ETextDirection.LeftToRight, []) ∧
    TextBiDi.ComputeTextDirection FailingParaICU "abc" 0 3 = .ok ETextDirection.LeftToRight :=
  ⟨(ComputeTextDirection_fails_open DecimalICU "abc" 0 3 ETextDirection.Mixed
      [⟨7, 7, ETextDirection.Mixed⟩]).1 (Or.inl (by decide)),
    (ComputeTextDirection_fails_open FailingParaICU "abc" 0 3 ETextDirection.RightToLeft
      [⟨7, 7, ETextDirection.Mixed⟩]).1 (Or.inr ⟨1, rfl, rfl⟩),
    (ComputeTextDirection_fails_open RtlFailingICU "abc" 0 3 ETextDirection.RightToLeft
      [⟨7, 7, ETextDirection.Mixed⟩]).1 (Or.inr ⟨1, rfl, rfl⟩),
    (ComputeTextDirection_fails_open FailingParaICU "abc" 0 3 ETextDirection.RightToLeft
      []).2 (Or.inr rfl)⟩

/-! ## `TextBiDi`: the base direction of a text -/

/-- C11: `ICUToUE` sends LTR to `LeftToRight`, RTL to `RightToLeft`, and the neutral value (the
one value without a case of its own) to `LeftToRight`. So, with `ubidi_getBaseDirection`
answering LTR, RTL or neutral as ICU documents it, `ComputeBaseDirection` never returns `Mixed`
for any text, and returns `LeftToRight` when the heuristic finds no strong character. -/
theorem ComputeBaseDirection_never_Mixed (icu : ICU) (InString : String)
    (InStringStartIndex InStringLen : Int)
    (hicu : ∀ Text : UnicodeString,
      icu.ubidi_getBaseDirection Text ≠ UBiDiDirection.UBIDI_MIXED) :
    TextBiDi.Internal.ICUToUE UBiDiDirection.UBIDI_LTR = ETextDirection.LeftToRight ∧
    TextBiDi.Internal.ICUToUE UBiDiDirection.UBIDI_RTL = ETextDirection.RightToLeft ∧
    TextBiDi.Internal.ICUToUE UBiDiDirection.UBIDI_NEUTRAL = ETextDirection.LeftToRight ∧
    TextBiDi.ComputeBaseDirection icu InString InStringStartIndex InStringLen
      ≠ ETextDirection.Mixed ∧
    (icu.ubidi_getBaseDirection (icu.ConvertString InString InStringStartIndex InStringLen)
        = UBiDiDirection.UBIDI_NEUTRAL →
      TextBiDi.ComputeBaseDirection icu InString InStringStartIndex InStringLen
        = ETextDirection.LeftToRight) ∧
    (TextBiDi.Internal.FICUTextBiDi.ComputeBaseDirection icu
        (TextBiDi.Internal.FICUTextBiDi.Create icu) InString InStringStartIndex InStringLen).1
      = TextBiDi.ComputeBaseDirection icu InString InStringStartIndex InStringLen := by
  refine ⟨rfl, rfl, rfl, ?_, ?_, ?_⟩
  · unfold TextBiDi.ComputeBaseDirection
    split
    · decide
    · have h := hicu (icu.ConvertString InString InStringStartIndex InStringLen)
      simp only [TextBiDi.Internal.ComputeBaseDirection]
      cases hd : icu.ubidi_getBaseDirection
          (icu.ConvertString InString InStringStartIndex InStringLen) <;>
        simp_all [TextBiDi.Internal.ICUToUE]
  · intro hneutral
    unfold TextBiDi.ComputeBaseDirection
    split
    · rfl
    · simp only [TextBiDi.Internal.ComputeBaseDirection, hneutral, TextBiDi.Internal.ICUToUE]
  · unfold TextBiDi.Internal.FICUTextBiDi.ComputeBaseDirection TextBiDi.ComputeBaseDirection
    split <;> rfl

/-- C11, evaluated: where the heuristic finds no strong character, the text `"123"` has base
direction `LeftToRight`. -/
theorem ComputeBaseDirection_never_Mixed_witness :
    TextBiDi.ComputeBaseDirection DecimalICU "123" 0 3 ≠ ETextDirection.Mixed ∧
    TextBiDi.ComputeBaseDirection DecimalICU "123" 0 3 = ETextDirection.LeftToRight :=
  ⟨(ComputeBaseDirection_never_Mixed DecimalICU "123" 0 3
      (fun _ => by simp [DecimalICU])).2.2.2.1,
    (ComputeBaseDirection_never_Mixed DecimalICU "123" 0 3
      (fun _ => by simp [DecimalICU])).2.2.2.2.1 rfl⟩

/-! ## `TextBiDi`: the direction of a text -/

/-- C12: for every text of non-zero length for which the BiDi object is created and
`ubidi_setPara` succeeds, `ComputeTextDirection(text)` returns the overall direction of the
paragraph analysed at level 0, the level of `LeftToRight`, mapped by `ICUToUE`, which sends
LTR, RTL and mixed to `LeftToRight`, `RightToLeft` and `Mixed`. No other level is consulted. -/
theorem ComputeTextDirection_level_zero (icu : ICU) (InString : String)
    (InStringStartIndex InStringLen : Int) (ICUBiDi : UBiDi) (OpenStatus : UErrorCode)
    (ParaStatus : UErrorCode) (Para : UBiDiPara)
    (hlen : InStringLen ≠ 0)
    (hopen : icu.ubidi_openSized
      (icu.ConvertString InString InStringStartIndex InStringLen).length 0
        = (some ICUBiDi, OpenStatus))
    (hopenok : U_SUCCESS OpenStatus = true)
    (hpara : icu.ubidi_setPara (some ICUBiDi)
      (icu.ConvertString InString InStringStartIndex InStringLen) 0 = (ParaStatus, Para))
    (hparaok : U_SUCCESS ParaStatus = true) :
    TextBiDi.Internal.GetParagraphDirection ETextDirection.LeftToRight = .ok 0 ∧
    TextBiDi.ComputeTextDirection icu InString InStringStartIndex InStringLen
      = .ok (TextBiDi.Internal.ICUToUE Para.getDirection) ∧
    TextBiDi.Internal.ICUToUE UBiDiDirection.UBIDI_LTR = ETextDirection.LeftToRight ∧
    TextBiDi.Internal.ICUToUE UBiDiDirection.UBIDI_RTL = ETextDirection.RightToLeft ∧
    TextBiDi.Internal.ICUToUE UBiDiDirection.UBIDI_MIXED = ETextDirection.Mixed := by
  refine ⟨rfl, ?_, rfl, rfl, rfl⟩
  have hint : TextBiDi.Internal.ComputeTextDirection icu (some ICUBiDi)
      (icu.ConvertString InString InStringStartIndex InStringLen)
      = .ok (TextBiDi.Internal.ICUToUE Para.getDirection) := by
    unfold TextBiDi.Internal.ComputeTextDirection
    rw [show TextBiDi.Internal.GetParagraphDirection ETextDirection.LeftToRight = .ok 0 from rfl]
    simp only [bind, Except.bind, hpara, hparaok, if_true, pure, Except.pure]
  simp [TextBiDi.ComputeTextDirection, hlen, hopen, hopenok, hint]

/-- C12, evaluated: a paragraph that the algorithm resolves as mixed at level 0 has direction
`Mixed`. -/
theorem ComputeTextDirection_level_zero_witness :
    TextBiDi.ComputeTextDirection TwoRunICU "abcde" 0 5 = .ok ETextDirection.Mixed :=
  (ComputeTextDirection_level_zero TwoRunICU "abcde" 0 5 ⟨0⟩ 0 0
    ⟨UBiDiDirection.UBIDI_MIXED, 2, TwoRunVisualRun 0⟩ (by decide) rfl rfl rfl rfl).2.1

/-! ## Comparison of texts -/

/-- The integer value of a comparison result is 0 exactly for `UCOL_EQUAL`. -/
theorem toInt32_eq_zero_iff (Result : UCollationResult) :
    Result.toInt32 = 0 ↔ Result = UCollationResult.UCOL_EQUAL := by
  cases Result <;> simp [UCollationResult.toInt32]

/-- C13: a predicate built by `FSortPredicate(level)` compares with the collator of the culture
that was current when it was built; for every pair of texts its result after the current
culture has been changed is the result before the change. -/
theorem FSortPredicate_bound_at_construction (Collators : ICUCollators)
    (I18N : FInternationalization) (ComparisonLevel : ETextComparisonLevel)
    (NewCulture : FCulture) (A B : FText) :
    (FText.FSortPredicate.Create Collators I18N ComparisonLevel).Implementation.ICUCollator
      = Collators.GetCollator I18N.GetCurrentCulture ComparisonLevel ∧
    FText.FSortPredicate.Call (I18N.SetCurrentCulture NewCulture)
        (FText.FSortPredicate.Create Collators I18N ComparisonLevel) A B
      = FText.FSortPredicate.Call I18N
        (FText.FSortPredicate.Create Collators I18N ComparisonLevel) A B ∧
    FText.FSortPredicate.Call (I18N.SetCurrentCulture NewCulture)
        (FText.FSortPredicate.Create Collators I18N ComparisonLevel) A B
      = ((Collators.GetCollator I18N.GetCurrentCulture ComparisonLevel).compare
          A.DisplayString B.DisplayString != UCollationResult.UCOL_GREATER) :=
  ⟨rfl, rfl, rfl⟩

/-- A predicate built before a change of culture and one built after it can differ, so the
binding at construction is observable. -/
theorem FSortPredicate_rebuilt_differs :
    FText.FSortPredicate.Call (InitializedEn.SetCurrentCulture ⟨"desc"⟩)
        (FText.FSortPredicate.Create CharacterCollators InitializedEn
          ETextComparisonLevel.Tertiary) (FText.FromString "b") (FText.FromString "a") = false ∧
    FText.FSortPredicate.Call (InitializedEn.SetCurrentCulture ⟨"desc"⟩)
        (FText.FSortPredicate.Create CharacterCollators
          (InitializedEn.SetCurrentCulture ⟨"desc"⟩) ETextComparisonLevel.Tertiary)
        (FText.FromString "b") (FText.FromString "a") = true :=
  ⟨by decide, by decide⟩

/-- C14: for all texts and every comparison level, `EqualTo` is true exactly when `CompareTo`,
against the same current culture, yields 0, which is exactly when the collator answers
`UCOL_EQUAL`. -/
theorem EqualTo_iff_CompareTo_zero (Collators : ICUCollators) (I18N : FInternationalization)
    (A B : FText) (ComparisonLevel : ETextComparisonLevel) :
    (FText.EqualTo Collators I18N A B ComparisonLevel = true
      ↔ FText.CompareTo Collators I18N A B ComparisonLevel = 0) ∧
    (FText.CompareTo Collators I18N A B ComparisonLevel = 0
      ↔ (Collators.GetCollator I18N.GetCurrentCulture ComparisonLevel).compare
          A.DisplayString B.DisplayString = UCollationResult.UCOL_EQUAL) := by
  constructor
  · simp [FText.EqualTo]
  · exact toInt32_eq_zero_iff _

/-- C15: for all texts, `EqualToCaseIgnored(a, b)` equals `EqualTo(a, b, Secondary)`. -/
theorem EqualToCaseIgnored_eq (Collators : ICUCollators) (I18N : FInternationalization)
    (A B : FText) :
    FText.EqualToCaseIgnored Collators I18N A B
      = FText.EqualTo Collators I18N A B ETextComparisonLevel.Secondary ∧
    (FText.EqualToCaseIgnored Collators I18N A B = true
      ↔ (Collators.GetCollator I18N.GetCurrentCulture ETextComparisonLevel.Secondary).compare
          A.DisplayString B.DisplayString = UCollationResult.UCOL_EQUAL) := by
  refine ⟨rfl, ?_⟩
  have h := toInt32_eq_zero_iff
    ((Collators.GetCollator I18N.GetCurrentCulture ETextComparisonLevel.Secondary).compare
      A.DisplayString B.DisplayString)
  simpa [FText.EqualToCaseIgnored, FText.EqualTo, FText.CompareTo] using h

/-! ## `FText::AsMemory`: bounds of the scaling loop -/

/-- The outcome of the loop from prefix 0, in terms of its two components. -/
theorem AsMemoryLoop_zero (n : Nat) :
    (AsMemoryLoop n 0).1 = n / 1024 ^ (AsMemoryLoop n 0).2 ∧
    (AsMemoryLoop n 0).1 ≤ 1048576 ∧
    ∀ j, j < (AsMemoryLoop n 0).2 → 1048576 < n / 1024 ^ j := by
  obtain ⟨k, hloop, hle, hall⟩ := AsMemoryLoop_spec n 0
  rw [Nat.zero_add] at hloop
  rw [hloop]
  exact ⟨rfl, hle, hall⟩

/-- C16: the scaling loop is a total function (it terminates on every byte count), and for
every 64-bit byte count the prefix index it ends with is at most 5, below the 8 letters of
`"kMGTPEZY"`: the lookup finds a letter and `FText::AsMemory` never reads past the table. -/
theorem AsMemory_prefix_in_bounds (icu : ICU) (I18N : FInternationalization) (n : Nat)
    (Options : Option FNumberFormattingOptions) (TargetCulture : FCulturePtr)
    (h64 : n < 2 ^ 64) :
    (AsMemoryLoop n 0).2 ≤ 5 ∧ (AsMemoryLoop n 0).2 < Prefixes.length ∧
    (∃ c : Char, Prefixes.data[(AsMemoryLoop n 0).2]? = some c) ∧
    FText.AsMemory icu I18N n Options TargetCulture ≠ .error Failure.IndexOutOfBounds := by
  have hk : (AsMemoryLoop n 0).2 ≤ 5 :=
    AsMemoryLoop_steps_le n _ h64 (AsMemoryLoop_zero n).2.2
  have hlen : Prefixes.length = 8 := by decide
  have hc : ∃ c : Char, Prefixes.data[(AsMemoryLoop n 0).2]? = some c := by
    generalize (AsMemoryLoop n 0).2 = k at hk
    interval_cases k <;> exact ⟨_, rfl⟩
  refine ⟨hk, by omega, hc, ?_⟩
  obtain ⟨c, hc⟩ := hc
  cases hinit : I18N.IsInitialized
  · simp [FText.AsMemory, checkf, hinit]
    intro h
    cases h
  · by_cases hn : n < 1024
    · simp [FText.AsMemory, checkf, hinit, hn]
    · simp [FText.AsMemory, checkf, hinit, hn, UnitString, hc]
      intro h
      cases h

/-- C16, evaluated: the largest 64-bit byte count ends the loop with prefix index 5, so the
bound is attained. -/
theorem AsMemory_prefix_in_bounds_witness :
    18446744073709551615 < 2 ^ 64 ∧ AsMemoryLoop 18446744073709551615 0 = (16383, 5) ∧
    (AsMemoryLoop 18446744073709551615 0).2 ≤ 5 :=
  ⟨by norm_num, by simp [AsMemoryLoop_unfold],
    (AsMemory_prefix_in_bounds DecimalICU InitializedEn 18446744073709551615 none none
      (by norm_num)).1⟩

/-- C17: for every byte count `n >= 1024`, the integer `r` left after the scaling loop
satisfies `1024 <= r <= 1048576`, so the number handed to `AsNumber`, `r / 1024`, lies in the
closed interval from 1 to 1024. -/
theorem AsMemory_remaining_range (n : Nat) (hn : 1024 ≤ n) :
    1024 ≤ (AsMemoryLoop n 0).1 ∧ (AsMemoryLoop n 0).1 ≤ 1048576 ∧
    (1 : ℚ) ≤ ((AsMemoryLoop n 0).1 : ℚ) / 1024 ∧
    ((AsMemoryLoop n 0).1 : ℚ) / 1024 ≤ 1024 := by
  obtain ⟨hr, hle, hall⟩ := AsMemoryLoop_zero n
  have hlow : 1024 ≤ (AsMemoryLoop n 0).1 := by
    rw [hr]
    cases hk : (AsMemoryLoop n 0).2 with
    | zero => simpa using hn
    | succ k =>
      have hprev := hall k (by omega)
      rw [pow_succ, ← Nat.div_div_eq_div_mul]
      omega
  refine ⟨hlow, hle, ?_, ?_⟩
  · rw [le_div_iff₀ (by norm_num)]
    exact_mod_cast (by omega : 1 * 1024 ≤ (AsMemoryLoop n 0).1)
  · rw [div_le_iff₀ (by norm_num)]
    exact_mod_cast (by omega : (AsMemoryLoop n 0).1 ≤ 1024 * 1024)

/-- C17, evaluated: 1 MiB + 1 byte leaves 1024 (displayed as 1), 1 MiB leaves 1048576 (displayed
as 1024): both ends of the interval are attained. -/
theorem AsMemory_remaining_range_witness :
    (1024 ≤ (AsMemoryLoop 1048577 0).1 ∧ (AsMemoryLoop 1048577 0).1 ≤ 1048576) ∧
    AsMemoryLoop 1048577 0 = (1024, 1) ∧ AsMemoryLoop 1048576 0 = (1048576, 0) :=
  ⟨⟨(AsMemory_remaining_range 1048577 (by decide)).1,
      (AsMemory_remaining_range 1048577 (by decide)).2.1⟩,
    by simp [AsMemoryLoop_unfold], by simp [AsMemoryLoop_unfold]⟩

/-- C18: with prefix index `k` and remaining integer `r` after the scaling loop,
`r = n / 1024 ^ k` rounded down: `r * 1024 ^ k <= n < (r + 1) * 1024 ^ k`. The displayed
quantity `r / 1024` in the unit of `1024 ^ (k + 1)` bytes never overstates `n` and understates
it by less than `1 / 1024` of that unit. -/
theorem AsMemory_remaining_is_floor (n : Nat) :
    (AsMemoryLoop n 0).1 = n / 1024 ^ (AsMemoryLoop n 0).2 ∧
    (AsMemoryLoop n 0).1 * 1024 ^ (AsMemoryLoop n 0).2 ≤ n ∧
    n < ((AsMemoryLoop n 0).1 + 1) * 1024 ^ (AsMemoryLoop n 0).2 ∧
    ((AsMemoryLoop n 0).1 : ℚ) / 1024 * (1024 : ℚ) ^ ((AsMemoryLoop n 0).2 + 1) ≤ (n : ℚ) ∧
    (n : ℚ) - ((AsMemoryLoop n 0).1 : ℚ) / 1024 * (1024 : ℚ) ^ ((AsMemoryLoop n 0).2 + 1)
      < (1024 : ℚ) ^ ((AsMemoryLoop n 0).2 + 1) / 1024 := by
  obtain ⟨hr, _, _⟩ := AsMemoryLoop_zero n
  have hpos : 0 < 1024 ^ (AsMemoryLoop n 0).2 := by positivity
  have h1 : (AsMemoryLoop n 0).1 * 1024 ^ (AsMemoryLoop n 0).2 ≤ n := by
    rw [hr]; exact Nat.div_mul_le_self n _
  have h2 : n < ((AsMemoryLoop n 0).1 + 1) * 1024 ^ (AsMemoryLoop n 0).2 := by
    rw [hr, Nat.mul_comm]; exact Nat.lt_mul_div_succ n hpos
  have hq : ((AsMemoryLoop n 0).1 : ℚ) / 1024 * (1024 : ℚ) ^ ((AsMemoryLoop n 0).2 + 1)
      = ((AsMemoryLoop n 0).1 : ℚ) * (1024 : ℚ) ^ (AsMemoryLoop n 0).2 := by
    rw [pow_succ]; ring
  have hu : (1024 : ℚ) ^ ((AsMemoryLoop n 0).2 + 1) / 1024
      = (1024 : ℚ) ^ (AsMemoryLoop n 0).2 := by
    rw [pow_succ]; ring
  refine ⟨hr, h1, h2, ?_, ?_⟩
  · rw [hq]; exact_mod_cast h1
  · rw [hq, hu]
    have h2q : (n : ℚ) < (((AsMemoryLoop n 0).1 : ℚ) + 1) * (1024 : ℚ) ^ (AsMemoryLoop n 0).2 := by
      exact_mod_cast h2
    linarith

/-! ## The ordering predicate -/

/-- C19: for all texts `A`, `B` the predicate `FSortPredicate(A, B)` is true exactly when the
comparison of `A` with `B` by the bound collator is not `UCOL_GREATER`, that is when it is
`UCOL_LESS` or `UCOL_EQUAL`. So for texts that the collator finds equal in both orders, and for
a text with itself, it is true in both argument orders: the ordering is not strict. -/
theorem FSortPredicate_not_greater (I18N : FInternationalization)
    (Predicate : FText.FSortPredicate) (A B : FText)
    (hAB : Predicate.Implementation.ICUCollator.compare A.DisplayString B.DisplayString
      = UCollationResult.UCOL_EQUAL)
    (hBA : Predicate.Implementation.ICUCollator.compare B.DisplayString A.DisplayString
      = UCollationResult.UCOL_EQUAL) :
    (∀ X Y : FText, FText.FSortPredicate.Call I18N Predicate X Y = true
      ↔ Predicate.Implementation.ICUCollator.compare X.DisplayString Y.DisplayString
          ≠ UCollationResult.UCOL_GREATER) ∧
    (∀ X Y : FText, FText.FSortPredicate.Call I18N Predicate X Y = true
      ↔ (Predicate.Implementation.ICUCollator.compare X.DisplayString Y.DisplayString
            = UCollationResult.UCOL_LESS ∨
          Predicate.Implementation.ICUCollator.compare X.DisplayString Y.DisplayString
            = UCollationResult.UCOL_EQUAL)) ∧
    FText.FSortPredicate.Call I18N Predicate A B = true ∧
    FText.FSortPredicate.Call I18N Predicate B A = true := by
  have hiff : ∀ X Y : FText, FText.FSortPredicate.Call I18N Predicate X Y = true
      ↔ Predicate.Implementation.ICUCollator.compare X.DisplayString Y.DisplayString
          ≠ UCollationResult.UCOL_GREATER := by
    intro X Y
    simp [FText.FSortPredicate.Call, FText.FSortPredicate.FSortPredicateImplementation.Compare]
  refine ⟨hiff, ?_, ?_, ?_⟩
  · intro X Y
    rw [hiff]
    cases Predicate.Implementation.ICUCollator.compare X.DisplayString Y.DisplayString <;>
      simp
  · rw [hiff, hAB]; decide
  · rw [hiff, hBA]; decide

/-- C19, evaluated: a text compared with itself satisfies the predicate, and so do, in both
orders, two texts that differ only in case at the level `Secondary`. -/
theorem FSortPredicate_not_greater_witness :
    FText.FSortPredicate.Call InitializedEn
        (FText.FSortPredicate.Create CharacterCollators InitializedEn
          ETextComparisonLevel.Tertiary) (FText.FromString "abc") (FText.FromString "abc")
      = true ∧
    FText.FSortPredicate.Call InitializedEn
        (FText.FSortPredicate.Create CharacterCollators InitializedEn
          ETextComparisonLevel.Secondary) (FText.FromString "Apple") (FText.FromString "apple")
      = true ∧
    FText.FSortPredicate.Call InitializedEn
        (FText.FSortPredicate.Create CharacterCollators InitializedEn
          ETextComparisonLevel.Secondary) (FText.FromString "apple") (FText.FromString "Apple")
      = true :=
  ⟨(FSortPredicate_not_greater InitializedEn
      (FText.FSortPredicate.Create CharacterCollators InitializedEn
        ETextComparisonLevel.Tertiary) (FText.FromString "abc") (FText.FromString "abc")
      (by decide) (by decide)).2.2.1,
    (FSortPredicate_not_greater InitializedEn
      (FText.FSortPredicate.Create CharacterCollators InitializedEn
        ETextComparisonLevel.Secondary) (FText.FromString "Apple") (FText.FromString "apple")
      (by decide) (by decide)).2.2.1,
    (FSortPredicate_not_greater InitializedEn
      (FText.FSortPredicate.Create CharacterCollators InitializedEn
        ETextComparisonLevel.Secondary) (FText.FromString "Apple") (FText.FromString "apple")
      (by decide) (by decide)).2.2.2⟩

/-! ## The reusable analyzer and the one-shot function -/

/-- The internal analysis depends on the BiDi object only through the `ubidi_setPara` call at
the level of the base direction. -/
theorem Internal_ComputeTextDirectionInfo_congr (icu : ICU) (ICUBiDi ICUBiDi' : UBiDiPtr)
    (InICUString : UnicodeString) (InStringOffset : Int) (InBaseDirection : ETextDirection)
    (OutTextDirectionInfo : List FTextDirectionInfo)
    (hpara : ∀ Level : UBiDiLevel,
      TextBiDi.Internal.GetParagraphDirection InBaseDirection = .ok Level →
      icu.ubidi_setPara ICUBiDi InICUString Level
        = icu.ubidi_setPara ICUBiDi' InICUString Level) :
    TextBiDi.Internal.ComputeTextDirectionInfo icu ICUBiDi InICUString InStringOffset
        InBaseDirection OutTextDirectionInfo
      = TextBiDi.Internal.ComputeTextDirectionInfo icu ICUBiDi' InICUString InStringOffset
        InBaseDirection OutTextDirectionInfo := by
  unfold TextBiDi.Internal.ComputeTextDirectionInfo
  cases hlevel : TextBiDi.Internal.GetParagraphDirection InBaseDirection with
  | error e => rfl
  | ok Level =>
    simp only [bind, Except.bind, hpara Level hlevel]

/-- C20: the reusable analyzer returns the same direction and the same run list (or fails the
same assertion) as the one-shot function, for every string, start offset, length and base
direction, whatever either output list held before and whatever BiDi object state, string and
converter state the analyzer retains, provided the BiDi object exists on both sides and the
library does not let retained state show: the retained converter, writing into the retained
string, yields the text of the one-shot conversion, and `ubidi_setPara` at the level of the
base direction answers for the retained object as for the newly created one. -/
theorem FICUTextBiDi_agrees (icu : ICU) (This : TextBiDi.Internal.FICUTextBiDi)
    (InString : String) (InStringStartIndex InStringLen : Int)
    (InBaseDirection : ETextDirection)
    (OutTextDirectionInfo OutTextDirectionInfo' : List FTextDirectionInfo)
    (hthis : This.ICUBiDi.isSome = true)
    (hopen : (icu.ubidi_openSized
      (icu.ConvertString InString InStringStartIndex InStringLen).length 0).1.isSome = true)
    (hopenok : U_SUCCESS (icu.ubidi_openSized
      (icu.ConvertString InString InStringStartIndex InStringLen).length 0).2 = true)
    (hconvert : (icu.StringConverter_ConvertString This.StringConverter InString
        InStringStartIndex InStringLen This.ICUString).1
      = icu.ConvertString InString InStringStartIndex InStringLen)
    (hpara : ∀ Level : UBiDiLevel,
      TextBiDi.Internal.GetParagraphDirection InBaseDirection = .ok Level →
      icu.ubidi_setPara This.ICUBiDi
          (icu.ConvertString InString InStringStartIndex InStringLen) Level
        = icu.ubidi_setPara
          (icu.ubidi_openSized
            (icu.ConvertString InString InStringStartIndex InStringLen).length 0).1
          (icu.ConvertString InString InStringStartIndex InStringLen) Level) :
    (TextBiDi.Internal.FICUTextBiDi.ComputeTextDirectionInfo icu This InString
        InStringStartIndex InStringLen InBaseDirection OutTextDirectionInfo).map
      (fun Result => (Result.1, Result.2.1))
    = TextBiDi.ComputeTextDirectionInfo icu InString InStringStartIndex InStringLen
        InBaseDirection OutTextDirectionInfo' := by
  have _ := hthis
  by_cases hlen : InStringLen = 0
  · subst hlen
    rfl
  have hcongr := Internal_ComputeTextDirectionInfo_congr icu This.ICUBiDi
    (icu.ubidi_openSized
      (icu.ConvertString InString InStringStartIndex InStringLen).length 0).1
    (icu.ConvertString InString InStringStartIndex InStringLen) InStringStartIndex
    InBaseDirection [] hpara
  simp only [TextBiDi.Internal.FICUTextBiDi.ComputeTextDirectionInfo,
    TextBiDi.ComputeTextDirectionInfo, Reset,
    TextBiDi.Internal.FICUTextBiDi.ConvertString]
  rw [if_neg (by simpa using hlen), if_neg (by simpa using hlen)]
  simp only [hopen, hopenok, Bool.and_self, if_true, hconvert, hcongr]
  cases TextBiDi.Internal.ComputeTextDirectionInfo icu
    (icu.ubidi_openSized (icu.ConvertString InString InStringStartIndex InStringLen).length 0).1
    (icu.ConvertString InString InStringStartIndex InStringLen) InStringStartIndex
    InBaseDirection [] <;> rfl

/-- C20, evaluated: an analyzer whose BiDi object, string and converter were left by earlier
calls returns the runs of the one-shot function. -/
theorem FICUTextBiDi_agrees_witness :
    (TextBiDi.Internal.FICUTextBiDi.ComputeTextDirectionInfo TwoRunICU
        ⟨some ⟨7⟩, [104, 105], ⟨3⟩⟩ "0123456789abcde" 10 5 ETextDirection.LeftToRight
        [⟨7, 7, ETextDirection.Mixed⟩]).map (fun Result => (Result.1, Result.2.1))
      = .ok (ETextDirection.Mixed,
          [⟨10, 3, ETextDirection.LeftToRight⟩, ⟨13, 2, ETextDirection.RightToLeft⟩]) := by
  rw [FICUTextBiDi_agrees TwoRunICU ⟨some ⟨7⟩, [104, 105], ⟨3⟩⟩ "0123456789abcde" 10 5
    ETextDirection.LeftToRight [⟨7, 7, ETextDirection.Mixed⟩] [] rfl rfl rfl rfl
    (fun _ _ => rfl)]
  rfl

/-- Where the library lets retained state show (a converter that appends to the retained
string), the analyzer and the one-shot function differ: the agreement is not built into the
two code paths. -/
theorem FICUTextBiDi_retained_state_shows :
    (TextBiDi.Internal.FICUTextBiDi.ComputeTextDirectionInfo AppendingICU
        ⟨some ⟨7⟩, [104, 105], ⟨3⟩⟩ "abc" 0 3 ETextDirection.LeftToRight []).map
        (fun Result => (Result.1, Result.2.1))
      = .ok (ETextDirection.LeftToRight, [⟨0, 5, ETextDirection.LeftToRight⟩]) ∧
    TextBiDi.ComputeTextDirectionInfo AppendingICU "abc" 0 3 ETextDirection.LeftToRight []
      = .ok (ETextDirection.LeftToRight, [⟨0, 3, ETextDirection.LeftToRight⟩]) :=
  ⟨rfl, rfl⟩

end UE
